import Mathlib

/-!
Verification of `RequestGateway.py`: an AWS Lambda module that manages the
lifecycle of an on-demand NAT gateway (inventory discovery, provisioning,
route-table convergence, activity tracking and time-based reclamation).

The embedding models the EC2/Lambda/CodePipeline environment as an explicit
`World` state.  Each boto3 call is a state transformer that may also append
an `Effect` to an append-only trace (mutating calls and outbound
notifications are traced; read-only describe calls are not).  Python
exceptions are modelled by the `PyErr` type; a function that can raise
returns `World × Except PyErr α` (or `World × Option PyErr` when it returns
no value), with the `World` surviving the raise, as real side effects do.

Timestamps in the lifecycle model are instants measured in seconds (as
`Int`); `timedelta(minutes=45)` is `45 * 60`.  A gateway's `LastRequested`
tag is modelled by the parsed instant it denotes (`Option Int`, `none` when
the tag is absent).  The textual format written by `str(datetime.utcnow())`
and read back by `dateutil.parser.isoparse` is modelled separately (and
faithfully, character by character) in the `PyTime` section below for the
round-trip property.
-/

namespace RequestGateway

/-- A NAT gateway as known to the provider: identity, lifecycle state
(`pending`/`available`/`deleting`/`deleted`), owning VPC, creation instant,
and the parsed value of its `LastRequested` tag (`none` if the tag is
absent).  Of the tags written by the code, only `LastRequested` is ever read
back, so it is the only one kept in the state (the full tag intent is
recorded in the effect trace). -/
structure GW where
  natGatewayId : String
  state : String
  vpcId : String
  created : Int
  lastRequested : Option Int
  deriving DecidableEq, Repr, Inhabited

/-- An elastic IP address with the two tags the code filters on. -/
structure Address where
  allocationId : String
  tagName : Option String
  tagForVpc : Option String
  deriving DecidableEq, Repr

/-- A subnet with the tag and VPC id the code filters on. -/
structure Subnet where
  subnetId : String
  vpcId : String
  tagPublic : Option String
  deriving DecidableEq, Repr

/-- A route in a route table: destination CIDR and, when the route targets a
NAT gateway, that gateway's id. -/
structure Route where
  destCidr : String
  natGatewayId : Option String
  deriving DecidableEq, Repr

/-- A route table: identity, the `OnDemandNAT` tag value the code filters
on, and its routes. -/
structure RouteTable where
  routeTableId : String
  tagOnDemandNAT : Option String
  routes : List Route
  deriving DecidableEq, Repr, Inhabited

/-- Python exceptions that the modelled calls can raise:
`clientError c` is a `botocore.exceptions.ClientError` whose error code is
`c`; `paramValidation` is the client-side `ParamValidationError` boto3
raises when `None` is passed for a string parameter; `indexError` is the
`IndexError` from `random.choice` on an empty sequence; `keyError` stands
for the `KeyError`/`IndexError` from `event['Records'][0]['body']` when the
event carries no record. -/
inductive PyErr where
  | clientError (code : String)
  | paramValidation
  | indexError
  | keyError
  deriving DecidableEq, Repr

/-- Observable effects: provider mutations and outbound notifications, in
call order.  `createTags` records the `LastRequested` instant written (the
material tag; provisioning writes further constant tags as well). -/
inductive Effect where
  | createNatGateway (allocationId subnetId natGatewayId : String)
  | createTags (natGatewayId : String) (lastRequested : Int)
  | deleteRoute (routeTableId : String)
  | createRoute (routeTableId natGatewayId : String)
  | deleteNatGateway (natGatewayId : String)
  | invokeLambda (payload : String)
  | putJobSuccess (jobId : String)
  | putJobFailure (jobId : String) (err : PyErr)
  deriving DecidableEq, Repr

/-- The whole environment: provider state, configuration (`VPC_ID`,
`VPC_NAME` environment variables), the current instant, the index drawn by
`random.choice`, the provider-chosen id for the next created gateway, a
fault oracle consumed (one entry per call, `some e` = that call raises `e`,
`none`/exhausted = natural behaviour) by the route-manipulation calls, and
the effect trace. -/
structure World where
  now : Int
  vpcId : String
  vpcName : String
  gateways : List GW
  addresses : List Address
  subnets : List Subnet
  routeTables : List RouteTable
  choice : Nat
  freshId : String
  faults : List (Option PyErr)
  trace : List Effect
  deriving DecidableEq, Repr

/-- The entry shape produced by the jmespath query in `list_nat_gateways`:
`[NatGatewayId, State, CreateTime, Tags[?Key=='LastRequested'].Value | [0]]`. -/
structure GwEntry where
  gatewayId : String
  state : String
  created : Int
  lastRequested : Option Int
  deriving DecidableEq, Repr

/-- One element of the `nat-changed` report built by
`check_gateway_required`. -/
structure ActionRec where
  action : String
  gatewayId : String
  age : Int
  inactive : Int
  deriving DecidableEq, Repr

/-- The return payload of `request_gateway_handler`: `statusCode`, and the
`nat-existing` key which is only present (set to `True`) on the
already-provisioned branch. -/
structure Info where
  statusCode : Nat
  natExisting : Option Bool
  deriving DecidableEq, Repr

/-- The return payload of `check_gateway_required` when a gateway exists. -/
structure CheckInfo where
  natChanged : List ActionRec
  deriving DecidableEq, Repr

/-- The triggering event: the bodies under `event['Records']` (empty list
models an absent or empty `Records` key) and the id under
`event['CodePipeline.job']` when present. -/
structure Event where
  records : List String
  codePipelineJob : Option String
  deriving DecidableEq, Repr

/-- The destination of a default route, `0.0.0.0/0`. -/
def defaultCidr : String := "0.0.0.0/0"

/-- Append an effect to the trace. -/
def emit (e : Effect) (w : World) : World :=
  { w with trace := w.trace ++ [e] }

/-- Consume the next fault-oracle entry. -/
def popFault (w : World) : Option PyErr × World :=
  match w.faults with
  | [] => (none, w)
  | f :: rest => (f, { w with faults := rest })

/-! ## `list_nat_gateways` (GatewayInventory) -/

/-- The describe filter: state in `pending`/`available` and `vpc-id` equal
to the `VPC_ID` environment variable. -/
def natGatewayFilter (w : World) (g : GW) : Bool :=
  (g.state == "pending" || g.state == "available") && g.vpcId == w.vpcId

/-- The gateways the describe call returns. -/
def filteredGateways (w : World) : List GW :=
  w.gateways.filter (natGatewayFilter w)

/-- The jmespath extraction of one gateway. -/
def extractEntry (g : GW) : GwEntry :=
  ⟨g.natGatewayId, g.state, g.created, g.lastRequested⟩

/-- `list_nat_gateways`: returns the extracted entries when at least one
gateway matched, and the Python `None` (here `Option.none`) otherwise. -/
def list_nat_gateways (w : World) : Option (List GwEntry) :=
  let gateways := (filteredGateways w).map extractEntry
  if gateways.length > 0 then some gateways else none

/-! ## `create_nat_gateway` (GatewayProvisioner) -/

/-- Addresses matching `tag:Name = OnDemandNAT-IPAddr` and
`tag:ForVpc = VPC_NAME`. -/
def matchingAddresses (w : World) : List Address :=
  w.addresses.filter fun a =>
    a.tagName == some "OnDemandNAT-IPAddr" && a.tagForVpc == some w.vpcName

/-- Subnet ids matching `tag:Public = Yes` and `vpc-id = VPC_ID`. -/
def publicSubnetIds (w : World) : List String :=
  (w.subnets.filter fun s => s.tagPublic == some "Yes" && s.vpcId == w.vpcId).map
    (·.subnetId)

/-- `random.choice`: `none` (an `IndexError`) on the empty list, otherwise
some member, selected by the environment-supplied index. -/
def randomChoice (k : Nat) (l : List String) : Option String :=
  match l with
  | [] => none
  | _ => l.get? (k % l.length)

/-- `ec2.create_tags(Resources=[gid], Tags=[{'Key': 'LastRequested',
'Value': '%s' % datetime.utcnow()}, ...])`: overwrite the gateway's
`LastRequested` tag with the current instant. Used both by the provisioner
(which also writes constant ownership tags) and by the request path's
touch. -/
def createLastRequestedTag (gid : String) (w : World) : World :=
  emit (Effect.createTags gid w.now)
    { w with
      gateways := w.gateways.map fun g =>
        if g.natGatewayId == gid then { g with lastRequested := some w.now } else g }

/-- `waiter.wait(NatGatewayIds=[gid])` on the success path: the provider
reaches the `available` state for that gateway. -/
def waitAvailable (gid : String) (w : World) : World :=
  { w with
    gateways := w.gateways.map fun g =>
      if g.natGatewayId == gid then { g with state := "available" } else g }

/-- `create_nat_gateway`: look up the single pre-tagged address
(`Addresses[0].AllocationId`, `None` when absent), pick a random public
subnet (`IndexError` when there are none), call the provider (boto3
client-side parameter validation rejects `AllocationId=None`), tag the new
gateway (including `LastRequested` = now) and wait until it is available.
Returns the new gateway's id. -/
def create_nat_gateway (w : World) : World × Except PyErr String :=
  let allocId : Option String := ((matchingAddresses w).head?).map (·.allocationId)
  match randomChoice w.choice (publicSubnetIds w) with
  | none => (w, Except.error PyErr.indexError)
  | some subnetId =>
    match allocId with
    | none => (w, Except.error PyErr.paramValidation)
    | some alloc =>
      let gid := w.freshId
      let w1 := emit (Effect.createNatGateway alloc subnetId gid)
        { w with gateways := w.gateways ++ [⟨gid, "pending", w.vpcId, w.now, none⟩] }
      let w2 := createLastRequestedTag gid w1
      (waitAvailable gid w2, Except.ok gid)

/-! ## `update_route_tables` (RouteConverger) -/

/-- The route-table describe filter: `tag:OnDemandNAT` in `Yes`/`True`. -/
def isTaggedTable (rt : RouteTable) : Bool :=
  rt.tagOnDemandNAT == some "Yes" || rt.tagOnDemandNAT == some "True"

/-- The ids enumerated by `describe_route_tables` + jmespath. -/
def taggedTableIds (w : World) : List String :=
  (w.routeTables.filter isTaggedTable).map (·.routeTableId)

/-- Does the table hold a route for destination `0.0.0.0/0`? -/
def hasDefaultRoute (rt : RouteTable) : Bool :=
  rt.routes.any fun r => r.destCidr == defaultCidr

/-- The table's default routes (`0.0.0.0/0` entries). -/
def defaultRoutes (rt : RouteTable) : List Route :=
  rt.routes.filter fun r => r.destCidr == defaultCidr

/-- `ec2.delete_route(RouteTableId=tid, DestinationCidrBlock='0.0.0.0/0')`:
an injected fault raises; naturally, a missing table raises
`InvalidRouteTableID.NotFound`, a missing default route raises
`InvalidRoute.NotFound`, and otherwise the default route is removed. -/
def delete_route (tid : String) (w : World) : World × Option PyErr :=
  let pf := popFault w
  let w1 := pf.2
  match pf.1 with
  | some e => (w1, some e)
  | none =>
    if w1.routeTables.any (fun rt => rt.routeTableId == tid) then
      if w1.routeTables.any (fun rt => rt.routeTableId == tid && hasDefaultRoute rt) then
        (emit (Effect.deleteRoute tid)
          { w1 with
            routeTables := w1.routeTables.map fun rt =>
              if rt.routeTableId == tid then
                { rt with routes := rt.routes.filter fun r => !(r.destCidr == defaultCidr) }
              else rt }, none)
      else (w1, some (PyErr.clientError "InvalidRoute.NotFound"))
    else (w1, some (PyErr.clientError "InvalidRouteTableID.NotFound"))

/-- `ec2.create_route(RouteTableId=tid, DestinationCidrBlock='0.0.0.0/0',
NatGatewayId=gid)`: an injected fault raises; naturally, a missing table
raises `InvalidRouteTableID.NotFound`, an existing default route raises
`RouteAlreadyExists`, and otherwise the route is added. -/
def create_route (tid gid : String) (w : World) : World × Option PyErr :=
  let pf := popFault w
  let w1 := pf.2
  match pf.1 with
  | some e => (w1, some e)
  | none =>
    if w1.routeTables.any (fun rt => rt.routeTableId == tid) then
      if w1.routeTables.any (fun rt => rt.routeTableId == tid && hasDefaultRoute rt) then
        (w1, some (PyErr.clientError "RouteAlreadyExists"))
      else
        (emit (Effect.createRoute tid gid)
          { w1 with
            routeTables := w1.routeTables.map fun rt =>
              if rt.routeTableId == tid then
                { rt with routes := rt.routes ++ [⟨defaultCidr, some gid⟩] }
              else rt }, none)
    else (w1, some (PyErr.clientError "InvalidRouteTableID.NotFound"))

/-- The `except ClientError` guard in `update_route_tables`: only a
`ClientError` with code `InvalidRoute.NotFound` is swallowed. -/
def toleratedRouteErr (e : PyErr) : Bool :=
  match e with
  | PyErr.clientError c => c == "InvalidRoute.NotFound"
  | _ => false

/-- The `for routeTableId in routes_list` loop body of
`update_route_tables`: delete the default route (tolerating
`InvalidRoute.NotFound`), then create the new one; any other error stops
the loop and propagates. -/
def routeLoop (gid : String) : List String → World → World × Option PyErr
  | [], w => (w, none)
  | tid :: rest, w =>
    let p := delete_route tid w
    let proceed : Bool :=
      match p.2 with
      | none => true
      | some e => toleratedRouteErr e
    if proceed then
      let q := create_route tid gid p.1
      match q.2 with
      | some e => (q.1, some e)
      | none => routeLoop gid rest q.1
    else (p.1, p.2)

/-- `update_route_tables(gatewayId)`: enumerate the tagged tables, then run
the loop. -/
def update_route_tables (gid : String) (w : World) : World × Option PyErr :=
  routeLoop gid (taggedTableIds w) w

/-! ## `invoke_lambda` and the request flow (LifecycleOrchestrator) -/

/-- `invoke_lambda(payload)`: fire-and-forget invocation of the downstream
function. -/
def invoke_lambda (payload : String) (w : World) : World :=
  emit (Effect.invokeLambda payload) w

/-- The touch loop of the non-empty branch: for every discovered gateway,
overwrite its `LastRequested` tag with the current instant. -/
def touchAll (gl : List GwEntry) (w : World) : World :=
  gl.foldl (fun w e => createLastRequestedTag e.gatewayId w) w

/-- The branch of `request_gateway_handler` before any use of the event:
query the inventory; if `None`, provision and converge routes; otherwise
touch every discovered gateway and set `nat-existing`. -/
def request_core (w : World) : World × Except PyErr Info :=
  match list_nat_gateways w with
  | none =>
    let c := create_nat_gateway w
    match c.2 with
    | Except.error e => (c.1, Except.error e)
    | Except.ok gid =>
      let u := update_route_tables gid c.1
      match u.2 with
      | some e => (u.1, Except.error e)
      | none => (u.1, Except.ok ⟨200, none⟩)
  | some gl => (touchAll gl w, Except.ok ⟨200, some true⟩)

/-- The tail of the `try` block: report success to the CodePipeline job if
the event carries one, then forward `event['Records'][0]['body']` to the
downstream Lambda (raising when the event has no record) and return. -/
def finishRequest (ev : Event) (info : Info) (w : World) : World × Except PyErr Info :=
  let w1 :=
    match ev.codePipelineJob with
    | some jid => emit (Effect.putJobSuccess jid) w
    | none => w
  match ev.records.head? with
  | some body => (invoke_lambda body w1, Except.ok info)
  | none => (w1, Except.error PyErr.keyError)

/-- The whole `try` block of `request_gateway_handler`. -/
def request_body (ev : Event) (w : World) : World × Except PyErr Info :=
  let r := request_core w
  match r.2 with
  | Except.error e => (r.1, Except.error e)
  | Except.ok info => finishRequest ev info r.1

/-- `request_gateway_handler(event, context)`: run the body; on any
exception, report failure (with the exception) to the CodePipeline job if
present, then re-raise. -/
def request_gateway_handler (ev : Event) (w : World) : World × Except PyErr Info :=
  let r := request_body ev w
  match r.2 with
  | Except.ok info => (r.1, Except.ok info)
  | Except.error e =>
    match ev.codePipelineJob with
    | some jid => (emit (Effect.putJobFailure jid e) r.1, Except.error e)
    | none => (r.1, Except.error e)

/-! ## `check_gateway_required` (ActivityTracker + Reaper) -/

/-- The age computed for one inventory entry: now minus creation time. -/
def ageOf (now : Int) (e : GwEntry) : Int := now - e.created

/-- The inactivity computed for one inventory entry: now minus the parsed
`LastRequested` tag when present, otherwise the age (now minus creation
time). -/
def inactivityOf (now : Int) (e : GwEntry) : Int :=
  match e.lastRequested with
  | some t => now - t
  | none => ageOf now e

/-- `timedelta(minutes=45)` in seconds. -/
def reapThreshold : Int := 45 * 60

/-- `ec2.delete_nat_gateway(NatGatewayId=gid)`: the gateway starts
deleting; nothing else changes. -/
def delete_nat_gateway (gid : String) (w : World) : World :=
  emit (Effect.deleteNatGateway gid)
    { w with
      gateways := w.gateways.map fun g =>
        if g.natGatewayId == gid then { g with state := "deleting" } else g }

/-- The `for (gatewayId, state, created, lastRequested) in gateway_list`
loop of `check_gateway_required`: compute age and inactivity, delete and
record `deleted` when inactivity is at least the threshold, otherwise
record `skipped`. -/
def check_loop (now : Int) : List GwEntry → World → List ActionRec × World
  | [], w => ([], w)
  | e :: rest, w =>
    let age := ageOf now e
    let inactive := inactivityOf now e
    if reapThreshold ≤ inactive then
      let r := check_loop now rest (delete_nat_gateway e.gatewayId w)
      (⟨"deleted", e.gatewayId, age, inactive⟩ :: r.1, r.2)
    else
      let r := check_loop now rest w
      (⟨"skipped", e.gatewayId, age, inactive⟩ :: r.1, r.2)

/-- `check_gateway_required(event, context)`: query the inventory; if
`None`, return immediately with no report; otherwise run the reaper loop,
forward `event['Records'][0]['body']` downstream and return the
`nat-changed` report. -/
def check_gateway_required (ev : Event) (w : World) :
    World × Except PyErr (Option CheckInfo) :=
  match list_nat_gateways w with
  | none => (w, Except.ok none)
  | some gl =>
    let r := check_loop w.now gl w
    match ev.records.head? with
    | some body => (invoke_lambda body r.2, Except.ok (some ⟨r.1⟩))
    | none => (r.2, Except.error PyErr.keyError)

/-! ## Derived characterizations and sample inputs

Spec-side summaries of what the loops compute, used to state the claims,
plus concrete worlds for the witnesses. -/

/-- The action record the reaper loop produces for one inventory entry. -/
def reapRecordOf (now : Int) (e : GwEntry) : ActionRec :=
  if reapThreshold ≤ inactivityOf now e then
    ⟨"deleted", e.gatewayId, ageOf now e, inactivityOf now e⟩
  else
    ⟨"skipped", e.gatewayId, ageOf now e, inactivityOf now e⟩

/-- Whether the reaper deletes the gateway of this entry. -/
def reapDecision (now : Int) (e : GwEntry) : Bool :=
  decide (reapThreshold ≤ inactivityOf now e)

/-- What the touch loop does to the gateway list: every gateway whose id is
named by some inventory entry gets its `LastRequested` tag set to now. -/
def touchGWList (now : Int) (gl : List GwEntry) (gs : List GW) : List GW :=
  gs.map fun g =>
    if gl.any (fun e => e.gatewayId == g.natGatewayId) then
      { g with lastRequested := some now }
    else g

/-- How a route-table list is transformed by converging the tables named in
`l` to gateway `gid`: identities and tags are untouched, every table named
in `l` ends with exactly the one default route targeting `gid`, and every
table not named in `l` is untouched. -/
def ConvergedTo (gid : String) (l : List String) (a b : List RouteTable) : Prop :=
  a.length = b.length ∧
  ∀ i, (ha : i < a.length) → (hb : i < b.length) →
    (b[i].routeTableId = a[i].routeTableId ∧
     b[i].tagOnDemandNAT = a[i].tagOnDemandNAT) ∧
    (a[i].routeTableId ∈ l → defaultRoutes b[i] = [⟨defaultCidr, some gid⟩]) ∧
    (a[i].routeTableId ∉ l → b[i] = a[i])

/-- The trace of `w1` extends the trace of `w` by effects satisfying `p`
(the trace is append-only throughout the model). -/
def TraceExt (w w1 : World) (p : Effect → Prop) : Prop :=
  ∃ t, w1.trace = w.trace ++ t ∧ ∀ eff ∈ t, p eff

/-- Effects that the inventory/provision/converge/touch steps can record:
provider mutations only — never a CodePipeline job report and never the
downstream notification. -/
def coreEffect : Effect → Prop := fun eff =>
  match eff with
  | Effect.putJobSuccess _ => False
  | Effect.putJobFailure _ _ => False
  | Effect.invokeLambda _ => False
  | _ => True

/-- A sample event carrying one record body and a CodePipeline job. -/
def sampleEv : Event := ⟨["payload-1"], some "job-1"⟩

/-- A sample provisionable world: empty inventory, one tagged address, one
public subnet, two tagged route tables (one with a stale default route, one
with none) and one untagged table. -/
def wBase : World :=
  { now := 20000, vpcId := "vpc-1", vpcName := "main", gateways := [],
    addresses := [⟨"al-1", some "OnDemandNAT-IPAddr", some "main"⟩],
    subnets := [⟨"sub-1", "vpc-1", some "Yes"⟩],
    routeTables := [⟨"rtb-1", some "Yes", [⟨"0.0.0.0/0", some "gw-old"⟩]⟩,
                    ⟨"rtb-2", some "True", []⟩, ⟨"rtb-3", none, []⟩],
    choice := 0, freshId := "nat-new", faults := [], trace := [] }

/-- Two gateways whose inactivity is exactly at the threshold (2700 s) and
one second below it (2699 s). -/
def wBoundary : World :=
  { wBase with gateways := [⟨"g-a", "available", "vpc-1", 0, some 17300⟩,
                            ⟨"g-b", "available", "vpc-1", 0, some 17301⟩] }

/-- One existing available gateway. -/
def wExisting : World :=
  { wBase with gateways := [⟨"g-a", "available", "vpc-1", 0, some 100⟩] }

/-- No public subnets: provisioning fails at `random.choice`. -/
def wNoSubnets : World := { wBase with subnets := [] }

/-- No matching address: provisioning fails at boto3 parameter
validation. -/
def wNoAddress : World := { wBase with addresses := [] }

/-- A provider fault injected into the first route call. -/
def wFaulty : World :=
  { wBase with faults := [some (PyErr.clientError "RequestLimitExceeded")] }

/-- A provider fault injected into the second route call (the creation). -/
def wFaultyCreate : World :=
  { wBase with faults := [none, some (PyErr.clientError "RequestLimitExceeded")] }

/-- The world after a successful concrete convergence run on `wBase`. -/
def wConv : World := (update_route_tables "nat-new" wBase).1

/-! ## PyTime: the textual timestamp contract

The `LastRequested` tag value is written as `'%s' % datetime.utcnow()`, the
Python rendering "YYYY-MM-DD HH:MM:SS[.ffffff]" (microseconds omitted when
zero), and read back by `dateutil.parser.isoparse`, which accepts any single
character as date/time separator and a 1-6 digit fraction.  The model below
renders and parses that format character by character; `isoparseTs` covers
the fragment of the ISO-8601 grammar relevant to these tag values (dashed
calendar date, full time with optional fraction, no timezone suffix). -/

/-- A naive Python `datetime` value, field by field. -/
structure PyDateTime where
  year : Nat
  month : Nat
  day : Nat
  hour : Nat
  minute : Nat
  second : Nat
  microsecond : Nat
  deriving DecidableEq, Repr

/-- Days in a month, with the Gregorian leap rule (as validated by the
`datetime` constructor). -/
def daysInMonth (y m : Nat) : Nat :=
  if m == 2 then
    if y % 4 == 0 && (y % 100 != 0 || y % 400 == 0) then 29 else 28
  else if m == 4 || m == 6 || m == 9 || m == 11 then 30
  else 31

/-- The field ranges accepted by the `datetime` constructor (year capped at
9999, which also makes the year render as exactly four digits). -/
def PyDateTime.Valid (dt : PyDateTime) : Prop :=
  1 ≤ dt.year ∧ dt.year ≤ 9999 ∧ 1 ≤ dt.month ∧ dt.month ≤ 12 ∧
  1 ≤ dt.day ∧ dt.day ≤ daysInMonth dt.year dt.month ∧
  dt.hour ≤ 23 ∧ dt.minute ≤ 59 ∧ dt.second ≤ 59 ∧ dt.microsecond ≤ 999999

instance (dt : PyDateTime) : Decidable dt.Valid := by
  unfold PyDateTime.Valid; infer_instance

/-- The decimal digits of `n`, most significant first, as characters
(empty for `0`, like `Nat.digits`). -/
def digitsBE (n : Nat) : List Char :=
  (Nat.digits 10 n).reverse.map fun d => Char.ofNat (48 + d)

/-- `n` zero-padded to (at least) `k` characters, the `%0kd` rendering. -/
def padBE (k n : Nat) : List Char :=
  List.replicate (k - (digitsBE n).length) (Char.ofNat 48) ++ digitsBE n

/-- Decimal value of a digit character. -/
def charToDigit (c : Char) : Nat := c.toNat - 48

/-- Decimal value of a digit string, most significant first. -/
def decDigits (cs : List Char) : Nat :=
  cs.foldl (fun a c => 10 * a + charToDigit c) 0

/-- The rendering `'%s' % dt` of a naive `datetime`:
`"%04d-%02d-%02d %02d:%02d:%02d" + (".%06d" if microsecond else "")`. -/
def pyDatetimeStr (dt : PyDateTime) : List Char :=
  padBE 4 dt.year ++ [Char.ofNat 45] ++ padBE 2 dt.month ++ [Char.ofNat 45] ++
  padBE 2 dt.day ++ [Char.ofNat 32] ++ padBE 2 dt.hour ++ [Char.ofNat 58] ++
  padBE 2 dt.minute ++ [Char.ofNat 58] ++ padBE 2 dt.second ++
  (if dt.microsecond == 0 then [] else [Char.ofNat 46] ++ padBE 6 dt.microsecond)

/-- Read exactly `k` digit characters as a number, returning the rest. -/
def parseFixedNat (k : Nat) (cs : List Char) : Option (Nat × List Char) :=
  let pre := cs.take k
  if pre.length == k && pre.all Char.isDigit then
    some (decDigits pre, cs.drop k)
  else none

/-- Require character `c` next, returning the rest. -/
def expectChar (c : Char) (cs : List Char) : Option (List Char) :=
  match cs with
  | [] => none
  | x :: rest => if x == c then some rest else none

/-- The fraction rule of `isoparse`: `.` or `,` followed by one to six
digits, scaled to microseconds (`int(frac[:6].ljust(6, '0'))`). -/
def parseFraction (cs : List Char) : Option Nat :=
  match cs with
  | [] => some 0
  | c :: rest =>
    if c == Char.ofNat 46 || c == Char.ofNat 44 then
      let ds := rest.takeWhile Char.isDigit
      if rest.dropWhile Char.isDigit == [] && 1 ≤ ds.length && ds.length ≤ 6 then
        some (decDigits ds * 10 ^ (6 - ds.length))
      else none
    else none

/-- Range validation performed by the `datetime(...)` constructor that
`isoparse` calls: out-of-range fields are a `ValueError`. -/
def mkPyDateTime (y mo d h mi s us : Nat) : Option PyDateTime :=
  let dt : PyDateTime := ⟨y, mo, d, h, mi, s, us⟩
  if dt.Valid then some dt else none

/-- `dateutil.parser.isoparse` on the grammar fragment relevant to the tag
values: dashed calendar date `YYYY-MM-DD`, then (optionally) any single
separator character, `HH:MM:SS`, and an optional fraction; no timezone
suffix.  Returns `none` where `isoparse` raises. -/
def isoparseTs (cs : List Char) : Option PyDateTime :=
  match parseFixedNat 4 cs with
  | none => none
  | some (y, r1) =>
    match expectChar (Char.ofNat 45) r1 with
    | none => none
    | some r2 =>
      match parseFixedNat 2 r2 with
      | none => none
      | some (mo, r3) =>
        match expectChar (Char.ofNat 45) r3 with
        | none => none
        | some r4 =>
          match parseFixedNat 2 r4 with
          | none => none
          | some (d, r5) =>
            match r5 with
            | [] => mkPyDateTime y mo d 0 0 0 0
            | _ :: r6 =>
              match parseFixedNat 2 r6 with
              | none => none
              | some (h, r7) =>
                match expectChar (Char.ofNat 58) r7 with
                | none => none
                | some r8 =>
                  match parseFixedNat 2 r8 with
                  | none => none
                  | some (mi, r9) =>
                    match expectChar (Char.ofNat 58) r9 with
                    | none => none
                    | some r10 =>
                      match parseFixedNat 2 r10 with
                      | none => none
                      | some (s, r11) =>
                        match parseFraction r11 with
                        | none => none
                        | some us => mkPyDateTime y mo d h mi s us

/-! ## Lemmas: the check flow -/

theorem check_loop_records (now : Int) (gl : List GwEntry) :
    ∀ w : World, (check_loop now gl w).1 = gl.map (reapRecordOf now) := by
  induction gl with
  | nil => intro w; simp [check_loop]
  | cons e rest ih =>
    intro w
    by_cases h : reapThreshold ≤ inactivityOf now e
    · simp [check_loop, reapRecordOf, h, ih]
    · simp [check_loop, reapRecordOf, h, ih]

theorem check_loop_trace (now : Int) (gl : List GwEntry) :
    ∀ w : World,
      (check_loop now gl w).2.trace =
        w.trace ++ (gl.filter (reapDecision now)).map
          (fun e => Effect.deleteNatGateway e.gatewayId) := by
  induction gl with
  | nil => intro w; simp [check_loop]
  | cons e rest ih =>
    intro w
    by_cases h : reapThreshold ≤ inactivityOf now e
    · simp [check_loop, h, ih, reapDecision, delete_nat_gateway, emit]
    · simp [check_loop, h, ih, reapDecision]

theorem check_loop_routeTables (now : Int) (gl : List GwEntry) :
    ∀ w : World, (check_loop now gl w).2.routeTables = w.routeTables := by
  induction gl with
  | nil => intro w; simp [check_loop]
  | cons e rest ih =>
    intro w
    by_cases h : reapThreshold ≤ inactivityOf now e
    · simp [check_loop, h, ih, delete_nat_gateway, emit]
    · simp [check_loop, h, ih]

theorem check_inversion (ev : Event) (w : World) (gl : List GwEntry) (w' : World)
    (info : CheckInfo) (hl : list_nat_gateways w = some gl)
    (hrun : check_gateway_required ev w = (w', Except.ok (some info))) :
    info.natChanged = gl.map (reapRecordOf w.now) ∧
    ∃ body, ev.records.head? = some body ∧
      w' = invoke_lambda body (check_loop w.now gl w).2 := by
  cases hb : ev.records.head? with
  | none =>
    simp [check_gateway_required, hl, hb] at hrun
  | some body =>
    simp [check_gateway_required, hl, hb] at hrun
    obtain ⟨hw, hinfo⟩ := hrun
    refine ⟨?_, body, rfl, hw.symm⟩
    rw [← hinfo, check_loop_records]

/-- Claim C5: when the check flow discovers zero gateways it is a complete
no-op: the world is returned unchanged (so no deletion effect and no
downstream `invoke_lambda` notification is recorded) and the result is the
bare `return` (no `nat-changed` report). -/
theorem claim_C5_empty_check_noop (ev : Event) (w : World)
    (h : list_nat_gateways w = none) :
    check_gateway_required ev w = (w, Except.ok none) := by
  simp [check_gateway_required, h]

theorem claim_C5_empty_check_noop_witness :
    list_nat_gateways wBase = none ∧
    check_gateway_required sampleEv wBase = (wBase, Except.ok none) :=
  ⟨rfl, claim_C5_empty_check_noop sampleEv wBase rfl⟩

/-- Claim C1: for every gateway discovered by the check flow, the produced
report is exactly one record per gateway; the delete requests issued are
exactly those for gateways whose inactivity reaches the 45-minute
threshold (`reapThreshold = 45 * 60` seconds, and `reapDecision` is the
inclusive comparison `reapThreshold ≤ inactivity`); a gateway at or above
the threshold gets a `deleted` record and a delete request, one strictly
below (including one second below) gets a `skipped` record and appears
nowhere in the issued deletes. -/
theorem claim_C1_reaper_threshold (ev : Event) (w : World) (gl : List GwEntry)
    (w' : World) (info : CheckInfo) (hl : list_nat_gateways w = some gl)
    (hrun : check_gateway_required ev w = (w', Except.ok (some info))) :
    info.natChanged = gl.map (reapRecordOf w.now) ∧
    (∃ body, ev.records.head? = some body ∧
      w'.trace = w.trace ++
        ((gl.filter (reapDecision w.now)).map
          (fun e => Effect.deleteNatGateway e.gatewayId)) ++
        [Effect.invokeLambda body]) ∧
    ∀ e ∈ gl,
      (reapThreshold ≤ inactivityOf w.now e →
        Effect.deleteNatGateway e.gatewayId ∈ w'.trace ∧
        ActionRec.mk "deleted" e.gatewayId (ageOf w.now e) (inactivityOf w.now e)
          ∈ info.natChanged) ∧
      (inactivityOf w.now e < reapThreshold →
        ActionRec.mk "skipped" e.gatewayId (ageOf w.now e) (inactivityOf w.now e)
          ∈ info.natChanged) := by
  obtain ⟨hinfo, body, hb, hw⟩ := check_inversion ev w gl w' info hl hrun
  have htrace : w'.trace = w.trace ++
      ((gl.filter (reapDecision w.now)).map
        (fun e => Effect.deleteNatGateway e.gatewayId)) ++
      [Effect.invokeLambda body] := by
    subst hw
    simp [invoke_lambda, emit, check_loop_trace]
  refine ⟨hinfo, ⟨body, hb, htrace⟩, ?_⟩
  intro e he
  constructor
  · intro hge
    constructor
    · rw [htrace]
      have : Effect.deleteNatGateway e.gatewayId ∈
          (gl.filter (reapDecision w.now)).map
            (fun e => Effect.deleteNatGateway e.gatewayId) := by
        exact List.mem_map_of_mem _
          (List.mem_filter.mpr ⟨he, by simpa [reapDecision] using hge⟩)
      simp [this]
    · rw [hinfo]
      have : reapRecordOf w.now e =
          ActionRec.mk "deleted" e.gatewayId (ageOf w.now e) (inactivityOf w.now e) := by
        simp [reapRecordOf, hge]
      exact this ▸ List.mem_map_of_mem _ he
  · intro hlt
    rw [hinfo]
    have : reapRecordOf w.now e =
        ActionRec.mk "skipped" e.gatewayId (ageOf w.now e) (inactivityOf w.now e) := by
      simp [reapRecordOf, not_le.mpr hlt]
    exact this ▸ List.mem_map_of_mem _ he

theorem claim_C1_reaper_threshold_witness :
    Effect.deleteNatGateway "g-a" ∈ (check_gateway_required sampleEv wBoundary).1.trace ∧
    ActionRec.mk "deleted" "g-a" 20000 2700 ∈
      ((check_gateway_required sampleEv wBoundary).2.toOption.join.getD ⟨[]⟩).natChanged ∧
    ActionRec.mk "skipped" "g-b" 20000 2699 ∈
      ((check_gateway_required sampleEv wBoundary).2.toOption.join.getD ⟨[]⟩).natChanged := by
  have h := claim_C1_reaper_threshold sampleEv wBoundary
    [⟨"g-a", "available", 0, some 17300⟩, ⟨"g-b", "available", 0, some 17301⟩]
    (check_gateway_required sampleEv wBoundary).1
    ((check_gateway_required sampleEv wBoundary).2.toOption.join.getD ⟨[]⟩)
    (by decide) (by rfl)
  obtain ⟨-, -, hper⟩ := h
  have ha := hper ⟨"g-a", "available", 0, some 17300⟩ (by decide)
  have hb := hper ⟨"g-b", "available", 0, some 17301⟩ (by decide)
  have ha2 := ha.1 (by decide)
  have hb2 := hb.2 (by decide)
  exact ⟨ha2.1, by simpa using ha2.2, by simpa using hb2⟩

/-- Claim C3: the inactivity used by the check flow is now minus the parsed
`LastRequested` tag when the tag is present (independent of creation time),
and now minus the creation time when it is absent; and the inactivity field
of every record reported by the check flow is exactly that value for the
corresponding discovered gateway. -/
theorem claim_C3_inactivity_fallback :
    (∀ (now : Int) (e : GwEntry), e.lastRequested = none →
      inactivityOf now e = now - e.created) ∧
    (∀ (now : Int) (e : GwEntry) (t : Int), e.lastRequested = some t →
      inactivityOf now e = now - t) ∧
    (∀ (ev : Event) (w : World) (gl : List GwEntry) (w' : World) (info : CheckInfo),
      list_nat_gateways w = some gl →
      check_gateway_required ev w = (w', Except.ok (some info)) →
      info.natChanged.map ActionRec.inactive = gl.map (inactivityOf w.now)) := by
  refine ⟨?_, ?_, ?_⟩
  · intro now e h; simp [inactivityOf, h, ageOf]
  · intro now e t h; simp [inactivityOf, h]
  · intro ev w gl w' info hl hrun
    obtain ⟨hinfo, -⟩ := check_inversion ev w gl w' info hl hrun
    rw [hinfo, List.map_map]
    refine List.map_congr_left ?_
    intro e _
    by_cases h : reapThreshold ≤ inactivityOf w.now e <;>
      simp [reapRecordOf, h]

theorem claim_C3_inactivity_fallback_witness :
    inactivityOf 20000 ⟨"g-c", "available", 100, none⟩ = 19900 ∧
    inactivityOf 20000 ⟨"g-a", "available", 100, some 17300⟩ = 2700 ∧
    ((check_gateway_required sampleEv wBoundary).2.toOption.join.getD
        ⟨[]⟩).natChanged.map ActionRec.inactive = [2700, 2699] := by
  refine ⟨?_, ?_, ?_⟩
  · exact claim_C3_inactivity_fallback.1 20000 ⟨"g-c", "available", 100, none⟩ rfl
  · exact claim_C3_inactivity_fallback.2.1 20000 ⟨"g-a", "available", 100, some 17300⟩
      17300 rfl
  · have h := claim_C3_inactivity_fallback.2.2 sampleEv wBoundary
      [⟨"g-a", "available", 0, some 17300⟩, ⟨"g-b", "available", 0, some 17301⟩]
      (check_gateway_required sampleEv wBoundary).1
      ((check_gateway_required sampleEv wBoundary).2.toOption.join.getD ⟨[]⟩)
      (by decide) (by rfl)
    simpa using h

/-! ## Lemmas: the route converger -/

theorem popFault_routeTables (w : World) : (popFault w).2.routeTables = w.routeTables := by
  rcases hf : w.faults <;> simp [popFault, hf]

theorem popFault_faults_nil (w : World) (h : w.faults = []) : popFault w = (none, w) := by
  simp [popFault, h]

theorem delete_route_tables_cases (tid : String) (w : World) :
    (delete_route tid w).1.routeTables = w.routeTables ∨
    (delete_route tid w).1.routeTables = w.routeTables.map (fun rt =>
      if rt.routeTableId == tid then
        { rt with routes := rt.routes.filter fun r => !(r.destCidr == defaultCidr) }
      else rt) := by
  rcases hf : w.faults with _ | ⟨f, fs⟩
  · simp only [delete_route, popFault, hf]
    split
    · split
      · right; simp [emit]
      · left; rfl
    · left; rfl
  · cases f with
    | none =>
      simp only [delete_route, popFault, hf]
      split
      · split
        · right; simp [emit]
        · left; rfl
      · left; rfl
    | some e =>
      simp only [delete_route, popFault, hf]
      exact Or.inl trivial

theorem create_route_ok_eq (tid gid : String) (w w1 : World)
    (h : create_route tid gid w = (w1, none)) :
    w1.routeTables = w.routeTables.map (fun rt =>
      if rt.routeTableId == tid then
        { rt with routes := rt.routes ++ [⟨defaultCidr, some gid⟩] }
      else rt) ∧
    w.routeTables.any (fun rt => rt.routeTableId == tid && hasDefaultRoute rt) = false := by
  rcases hf : w.faults with _ | ⟨f, fs⟩
  · simp only [create_route, popFault, hf] at h
    split at h
    · split at h
      · simp at h
      · simp only [emit, Prod.mk.injEq] at h
        obtain ⟨hw, -⟩ := h
        subst hw
        simp_all
    · simp at h
  · cases f with
    | none =>
      simp only [create_route, popFault, hf] at h
      split at h
      · split at h
        · simp at h
        · simp only [emit, Prod.mk.injEq] at h
          obtain ⟨hw, -⟩ := h
          subst hw
          simp_all
      · simp at h
    | some e =>
      simp only [create_route, popFault, hf] at h
      simp at h

theorem hasDefaultRoute_false_filter (rt : RouteTable) (h : hasDefaultRoute rt = false) :
    rt.routes.filter (fun r => r.destCidr == defaultCidr) = [] := by
  have h2 : ∀ r ∈ rt.routes, ¬ r.destCidr = defaultCidr := by
    simpa [hasDefaultRoute, List.any_eq_false] using h
  rw [List.filter_eq_nil_iff]
  intro r hr
  simpa using h2 r hr

theorem tables_upd_step (tid : String) (g : RouteTable → RouteTable)
    (hid : ∀ rt, (g rt).routeTableId = rt.routeTableId)
    (htag : ∀ rt, (g rt).tagOnDemandNAT = rt.tagOnDemandNAT)
    (a b : List RouteTable)
    (hb : b = a.map (fun rt => if rt.routeTableId == tid then g rt else rt)) :
    b.length = a.length ∧
    ∀ i, (hia : i < a.length) → (hib : i < b.length) →
      b[i].routeTableId = a[i].routeTableId ∧
      b[i].tagOnDemandNAT = a[i].tagOnDemandNAT ∧
      (a[i].routeTableId ≠ tid → b[i] = a[i]) ∧
      (a[i].routeTableId = tid → b[i] = g a[i]) := by
  subst hb
  refine ⟨by simp, ?_⟩
  intro i hia hib
  simp only [List.getElem_map]
  by_cases hc : a[i].routeTableId == tid
  · have heq : a[i].routeTableId = tid := by simpa using hc
    exact ⟨by simp [hc, hid], by simp [hc, htag], fun hne => absurd heq hne,
      fun _ => by simp [hc]⟩
  · have hc2 : (a[i].routeTableId == tid) = false := by simpa using hc
    have hne : a[i].routeTableId ≠ tid := by simpa using hc
    exact ⟨by simp [hc2], by simp [hc2], fun _ => by simp [hc2],
      fun heq => absurd heq hne⟩

theorem tables_keep_step (a b : List RouteTable) (hb : b = a) (tid : String) :
    b.length = a.length ∧
    ∀ i, (hia : i < a.length) → (hib : i < b.length) →
      b[i].routeTableId = a[i].routeTableId ∧
      b[i].tagOnDemandNAT = a[i].tagOnDemandNAT ∧
      (a[i].routeTableId ≠ tid → b[i] = a[i]) := by
  subst hb
  exact ⟨rfl, fun i hia hib => ⟨rfl, rfl, fun _ => rfl⟩⟩

theorem routeLoop_converges_step (gid tid : String) (rest : List String)
    (ih : ∀ (w w1 : World), routeLoop gid rest w = (w1, none) →
      ConvergedTo gid rest w.routeTables w1.routeTables)
    (w wd wc w1 : World)
    (h : routeLoop gid rest wc = (w1, none))
    (hdstep : wd.routeTables.length = w.routeTables.length ∧
        ∀ i, (hia : i < w.routeTables.length) → (hib : i < wd.routeTables.length) →
          wd.routeTables[i].routeTableId = w.routeTables[i].routeTableId ∧
          wd.routeTables[i].tagOnDemandNAT = w.routeTables[i].tagOnDemandNAT ∧
          (w.routeTables[i].routeTableId ≠ tid →
            wd.routeTables[i] = w.routeTables[i]))
    (hcreate : wc.routeTables = wd.routeTables.map (fun rt =>
        if rt.routeTableId == tid then
          { rt with routes := rt.routes ++ [⟨defaultCidr, some gid⟩] }
        else rt) ∧
      wd.routeTables.any (fun rt => rt.routeTableId == tid && hasDefaultRoute rt) = false) :
    ConvergedTo gid (tid :: rest) w.routeTables w1.routeTables := by
  obtain ⟨hceq, hnone⟩ := hcreate
  obtain ⟨hlen_d, hdrel⟩ := hdstep
  obtain ⟨hlen_c, hcrel⟩ := tables_upd_step tid
    (fun rt => { rt with routes := rt.routes ++ [⟨defaultCidr, some gid⟩] })
    (fun rt => rfl) (fun rt => rfl) _ _ hceq
  obtain ⟨hlen_r, hrrel⟩ := ih wc w1 h
  refine ⟨by omega, ?_⟩
  intro i ha hb
  have hi_d : i < wd.routeTables.length := by omega
  have hi_c : i < wc.routeTables.length := by omega
  obtain ⟨hd_id, hd_tag, hd_keep⟩ := hdrel i ha hi_d
  obtain ⟨hc_id, hc_tag, hc_keep, hc_upd⟩ := hcrel i hi_d hi_c
  obtain ⟨⟨hr_id, hr_tag⟩, hr_in, hr_out⟩ := hrrel i hi_c hb
  refine ⟨⟨by rw [hr_id, hc_id, hd_id], by rw [hr_tag, hc_tag, hd_tag]⟩, ?_, ?_⟩
  · intro hmem
    by_cases hinrest : w.routeTables[i].routeTableId ∈ rest
    · apply hr_in
      rw [hc_id, hd_id]
      exact hinrest
    · have heqtid : w.routeTables[i].routeTableId = tid := by
        rcases List.mem_cons.mp hmem with heq | hin
        · exact heq
        · exact absurd hin hinrest
      have hupd := hc_upd (by rw [hd_id]; exact heqtid)
      have hout : wc.routeTables[i].routeTableId ∉ rest := by
        rw [hc_id, hd_id]
        exact hinrest
      rw [hr_out hout, hupd]
      have hnof : hasDefaultRoute wd.routeTables[i] = false := by
        have hmem2 := List.any_eq_false.mp hnone wd.routeTables[i]
          (List.getElem_mem hi_d)
        have hbe : (wd.routeTables[i].routeTableId == tid) = true := by
          simp [hd_id, heqtid]
        simpa [hbe] using hmem2
      simp [defaultRoutes, List.filter_append, hasDefaultRoute_false_filter _ hnof]
  · intro hnin
    have hne : w.routeTables[i].routeTableId ≠ tid := fun heq =>
      hnin (List.mem_cons.mpr (Or.inl heq))
    have hninrest : w.routeTables[i].routeTableId ∉ rest := fun hin =>
      hnin (List.mem_cons.mpr (Or.inr hin))
    have h3 : wc.routeTables[i].routeTableId ∉ rest := by
      rw [hc_id, hd_id]
      exact hninrest
    rw [hr_out h3, hc_keep (by rw [hd_id]; exact hne), hd_keep hne]

theorem routeLoop_converges (gid : String) :
    ∀ (l : List String) (w w1 : World), routeLoop gid l w = (w1, none) →
      ConvergedTo gid l w.routeTables w1.routeTables := by
  intro l
  induction l with
  | nil =>
    intro w w1 h
    simp only [routeLoop, Prod.mk.injEq] at h
    obtain ⟨hw, -⟩ := h
    subst hw
    exact ⟨rfl, fun i ha hb => ⟨⟨rfl, rfl⟩, fun hmem => absurd hmem (List.not_mem_nil _),
      fun _ => rfl⟩⟩
  | cons tid rest ih =>
    intro w w1 h
    rcases hd : delete_route tid w with ⟨wd, rd⟩
    rcases hc : create_route tid gid wd with ⟨wc, rc⟩
    simp only [routeLoop, hd] at h
    have hdel : wd.routeTables = w.routeTables ∨
        wd.routeTables = w.routeTables.map (fun rt =>
          if rt.routeTableId == tid then
            { rt with routes := rt.routes.filter fun r => !(r.destCidr == defaultCidr) }
          else rt) := by
      have h0 := delete_route_tables_cases tid w
      simp only [hd] at h0
      exact h0
    -- the delete step preserves identities and tags, and off-tid tables
    have hdstep : wd.routeTables.length = w.routeTables.length ∧
        ∀ i, (hia : i < w.routeTables.length) → (hib : i < wd.routeTables.length) →
          wd.routeTables[i].routeTableId = w.routeTables[i].routeTableId ∧
          wd.routeTables[i].tagOnDemandNAT = w.routeTables[i].tagOnDemandNAT ∧
          (w.routeTables[i].routeTableId ≠ tid →
            wd.routeTables[i] = w.routeTables[i]) := by
      rcases hdel with hdl | hdl
      · exact tables_keep_step _ _ hdl tid
      · have := tables_upd_step tid
          (fun rt => { rt with routes := rt.routes.filter fun r => !(r.destCidr == defaultCidr) })
          (fun rt => rfl) (fun rt => rfl) _ _ hdl
        exact ⟨this.1, fun i hia hib =>
          ⟨(this.2 i hia hib).1, (this.2 i hia hib).2.1, (this.2 i hia hib).2.2.1⟩⟩
    -- case split on the loop continuation
    cases rd with
    | some e =>
      by_cases ht : toleratedRouteErr e = true
      · rw [if_pos (by simpa using ht)] at h
        simp only [hc] at h
        cases rc with
        | some e2 => simp at h
        | none =>
          exact routeLoop_converges_step gid tid rest ih w wd wc w1 h hdstep
            (create_route_ok_eq tid gid wd wc hc)
      · rw [if_neg (by simpa using ht)] at h
        simp at h
    | none =>
      rw [if_pos rfl] at h
      simp only [hc] at h
      cases rc with
      | some e2 => simp at h
      | none =>
        exact routeLoop_converges_step gid tid rest ih w wd wc w1 h hdstep
          (create_route_ok_eq tid gid wd wc hc)

theorem hasDefault_filtered (rt : RouteTable) :
    hasDefaultRoute
      { rt with routes := rt.routes.filter fun r => !(r.destCidr == defaultCidr) } =
      false := by
  rw [hasDefaultRoute, List.any_eq_false]
  intro r hr
  have := (List.mem_filter.mp hr).2
  simp at this
  simp [this]

theorem taggedTableIds_any (w : World) (tid : String) (h : tid ∈ taggedTableIds w) :
    w.routeTables.any (fun rt => rt.routeTableId == tid) = true := by
  obtain ⟨rt, hrt, hid⟩ := List.mem_map.mp h
  exact List.any_eq_true.mpr ⟨rt, (List.mem_filter.mp hrt).1, by simp [hid]⟩

theorem delete_route_nofault (tid : String) (w : World) (hf : w.faults = [])
    (hex : w.routeTables.any (fun rt => rt.routeTableId == tid) = true) :
    delete_route tid w =
      if w.routeTables.any (fun rt => rt.routeTableId == tid && hasDefaultRoute rt) then
        (emit (Effect.deleteRoute tid)
          { w with
            routeTables := w.routeTables.map fun rt =>
              if rt.routeTableId == tid then
                { rt with routes := rt.routes.filter fun r => !(r.destCidr == defaultCidr) }
              else rt }, none)
      else (w, some (PyErr.clientError "InvalidRoute.NotFound")) := by
  simp [delete_route, popFault, hf, hex]

theorem create_route_nofault (tid gid : String) (w : World) (hf : w.faults = [])
    (hex : w.routeTables.any (fun rt => rt.routeTableId == tid) = true)
    (hnodef : w.routeTables.any
      (fun rt => rt.routeTableId == tid && hasDefaultRoute rt) = false) :
    create_route tid gid w =
      (emit (Effect.createRoute tid gid)
        { w with
          routeTables := w.routeTables.map fun rt =>
            if rt.routeTableId == tid then
              { rt with routes := rt.routes ++ [⟨defaultCidr, some gid⟩] }
            else rt }, none) := by
  simp [create_route, popFault, hf, hex, hnodef]

theorem any_map_hetero {α β : Type} (f : α → β) (l : List α) (p : β → Bool) :
    (l.map f).any p = l.any (fun x => p (f x)) := by
  induction l with
  | nil => rfl
  | cons x xs ih => simp [ih]

theorem any_id_congr (a b : List RouteTable)
    (h : a.map RouteTable.routeTableId = b.map RouteTable.routeTableId) (tid : String) :
    a.any (fun rt => rt.routeTableId == tid) = b.any (fun rt => rt.routeTableId == tid) := by
  have ha : a.any (fun rt => rt.routeTableId == tid)
      = (a.map RouteTable.routeTableId).any (fun s => s == tid) := by
    rw [any_map_hetero]
  have hb : b.any (fun rt => rt.routeTableId == tid)
      = (b.map RouteTable.routeTableId).any (fun s => s == tid) := by
    rw [any_map_hetero]
  rw [ha, hb, h]

theorem routeLoop_ok_of_nofaults (gid : String) :
    ∀ (l : List String) (w : World), w.faults = [] →
      (∀ tid ∈ l, w.routeTables.any (fun rt => rt.routeTableId == tid) = true) →
      ∃ w1, routeLoop gid l w = (w1, none) ∧ w1.faults = [] ∧
        w1.routeTables.map RouteTable.routeTableId =
          w.routeTables.map RouteTable.routeTableId := by
  intro l
  induction l with
  | nil =>
    intro w hf hmem
    exact ⟨w, by simp [routeLoop], hf, rfl⟩
  | cons tid rest ih =>
    intro w hf hmem
    have hex := hmem tid (List.mem_cons_self tid rest)
    have hdel := delete_route_nofault tid w hf hex
    by_cases hdef : w.routeTables.any
        (fun rt => rt.routeTableId == tid && hasDefaultRoute rt) = true
    · -- some tid-table had a default route; the delete removes it
      rw [if_pos hdef] at hdel
      set wd : World := emit (Effect.deleteRoute tid)
        { w with
          routeTables := w.routeTables.map fun rt =>
            if rt.routeTableId == tid then
              { rt with routes := rt.routes.filter fun r => !(r.destCidr == defaultCidr) }
            else rt } with hwd
      have hids : wd.routeTables.map RouteTable.routeTableId =
          w.routeTables.map RouteTable.routeTableId := by
        rw [hwd]
        simp only [emit, List.map_map]
        refine List.map_congr_left ?_
        intro rt _
        by_cases hc : rt.routeTableId == tid <;> simp [hc, Function.comp]
      have hfd : wd.faults = [] := by rw [hwd]; simp [emit, hf]
      have hexd : wd.routeTables.any (fun rt => rt.routeTableId == tid) = true := by
        rw [any_id_congr _ _ hids tid]
        exact hex
      have hnodefd : wd.routeTables.any
          (fun rt => rt.routeTableId == tid && hasDefaultRoute rt) = false := by
        rw [hwd]
        simp only [emit]
        rw [List.any_map, List.any_eq_false]
        intro rt _
        by_cases hc : rt.routeTableId == tid
        · simp [Function.comp, hc, hasDefault_filtered]
        · simp [Function.comp, hc]
      have hcreate := create_route_nofault tid gid wd hfd hexd hnodefd
      set wc : World := emit (Effect.createRoute tid gid)
        { wd with
          routeTables := wd.routeTables.map fun rt =>
            if rt.routeTableId == tid then
              { rt with routes := rt.routes ++ [⟨defaultCidr, some gid⟩] }
            else rt } with hwc
      have hidsc : wc.routeTables.map RouteTable.routeTableId =
          w.routeTables.map RouteTable.routeTableId := by
        rw [hwc]
        simp only [emit, List.map_map]
        rw [← hids]
        refine List.map_congr_left ?_
        intro rt _
        by_cases hc : rt.routeTableId == tid <;> simp [hc, Function.comp]
      have hfc : wc.faults = [] := by rw [hwc]; simp [emit, hfd]
      have hmem2 : ∀ t ∈ rest, wc.routeTables.any
          (fun rt => rt.routeTableId == t) = true := by
        intro t ht
        rw [any_id_congr _ _ hidsc t]
        exact hmem t (List.mem_cons_of_mem tid ht)
      obtain ⟨w1, hrun, hf1, hids1⟩ := ih wc hfc hmem2
      refine ⟨w1, ?_, hf1, by rw [hids1, hidsc]⟩
      simp only [routeLoop, hdel, hcreate]
      exact hrun
    · -- no tid-table had a default route: the delete raises the tolerated error
      rw [if_neg hdef] at hdel
      have hnodef : w.routeTables.any
          (fun rt => rt.routeTableId == tid && hasDefaultRoute rt) = false := by
        simpa using hdef
      have hcreate := create_route_nofault tid gid w hf hex hnodef
      set wc : World := emit (Effect.createRoute tid gid)
        { w with
          routeTables := w.routeTables.map fun rt =>
            if rt.routeTableId == tid then
              { rt with routes := rt.routes ++ [⟨defaultCidr, some gid⟩] }
            else rt } with hwc
      have hidsc : wc.routeTables.map RouteTable.routeTableId =
          w.routeTables.map RouteTable.routeTableId := by
        rw [hwc]
        simp only [emit, List.map_map]
        refine List.map_congr_left ?_
        intro rt _
        by_cases hc : rt.routeTableId == tid <;> simp [hc, Function.comp]
      have hfc : wc.faults = [] := by rw [hwc]; simp [emit, hf]
      have hmem2 : ∀ t ∈ rest, wc.routeTables.any
          (fun rt => rt.routeTableId == t) = true := by
        intro t ht
        rw [any_id_congr _ _ hidsc t]
        exact hmem t (List.mem_cons_of_mem tid ht)
      obtain ⟨w1, hrun, hf1, hids1⟩ := ih wc hfc hmem2
      refine ⟨w1, ?_, hf1, by rw [hids1, hidsc]⟩
      simp only [routeLoop, hdel, hcreate, toleratedRouteErr]
      exact hrun

theorem update_route_tables_delete_fault (gid : String) (w : World) (e : PyErr)
    (fs : List (Option PyErr)) (hf : w.faults = some e :: fs)
    (hne : toleratedRouteErr e = false) (hne2 : taggedTableIds w ≠ []) :
    update_route_tables gid w = ({ w with faults := fs }, some e) := by
  rcases hl : taggedTableIds w with _ | ⟨tid, rest⟩
  · exact absurd hl hne2
  · simp [update_route_tables, hl, routeLoop, delete_route, popFault, hf, hne]

theorem delete_route_head_none (tid : String) (w w2 : World)
    (hpf : popFault w = (none, w2))
    (hex : w2.routeTables.any (fun rt => rt.routeTableId == tid) = true) :
    delete_route tid w =
      if w2.routeTables.any (fun rt => rt.routeTableId == tid && hasDefaultRoute rt) then
        (emit (Effect.deleteRoute tid)
          { w2 with
            routeTables := w2.routeTables.map fun rt =>
              if rt.routeTableId == tid then
                { rt with routes := rt.routes.filter fun r => !(r.destCidr == defaultCidr) }
              else rt }, none)
      else (w2, some (PyErr.clientError "InvalidRoute.NotFound")) := by
  simp [delete_route, hpf, hex]

theorem update_route_tables_create_fault (gid : String) (w : World) (e : PyErr)
    (fs : List (Option PyErr)) (hf : w.faults = none :: some e :: fs)
    (hne2 : taggedTableIds w ≠ []) :
    ∃ w1, update_route_tables gid w = (w1, some e) := by
  rcases hl : taggedTableIds w with _ | ⟨tid, rest⟩
  · exact absurd hl hne2
  · have hex : w.routeTables.any (fun rt => rt.routeTableId == tid) = true :=
      taggedTableIds_any w tid (by rw [hl]; exact List.mem_cons_self tid rest)
    have hw2 : popFault w = (none, { w with faults := some e :: fs }) := by
      simp [popFault, hf]
    have hdel := delete_route_head_none tid w { w with faults := some e :: fs } hw2 hex
    by_cases hdef : ({ w with faults := some e :: fs } : World).routeTables.any
        (fun rt => rt.routeTableId == tid && hasDefaultRoute rt) = true
    · rw [if_pos hdef] at hdel
      have h2 : (update_route_tables gid w).2 = some e := by
        rw [update_route_tables, hl]
        simp only [routeLoop, hdel]
        simp [create_route, popFault, emit]
      exact ⟨(update_route_tables gid w).1, by rw [← h2]⟩
    · rw [if_neg hdef] at hdel
      have h2 : (update_route_tables gid w).2 = some e := by
        rw [update_route_tables, hl]
        simp only [routeLoop, hdel, toleratedRouteErr]
        simp [create_route, popFault]
      exact ⟨(update_route_tables gid w).1, by rw [← h2]⟩

/-- Claim C2: the route converger, run with gateway identity `gid`,
processes every route table tagged as an on-demand-NAT table by deleting its
default route and creating a new one targeting `gid`.  Conjunct 1: after a
successful run, every tagged table's default route targets exactly `gid`,
regardless of its prior route state (the initial world is arbitrary).
Conjunct 2: with no injected provider faults the run always succeeds — in
particular a table with no default route does not make it fail, the
`InvalidRoute.NotFound` outcome being tolerated.  Conjunct 3: a deletion
failure other than `InvalidRoute.NotFound` propagates to the caller.
Conjunct 4: a creation failure propagates to the caller. -/
theorem update_route_tables_converged (gid : String) (w w1 : World)
    (h : update_route_tables gid w = (w1, none)) :
    w1.routeTables.length = w.routeTables.length ∧
    ∀ rt ∈ w1.routeTables, isTaggedTable rt = true →
      defaultRoutes rt = [⟨defaultCidr, some gid⟩] := by
  obtain ⟨hlen, hrel⟩ := routeLoop_converges gid (taggedTableIds w) w w1 h
  refine ⟨hlen.symm, ?_⟩
  intro rt hrt htag
  obtain ⟨i, hb, heq⟩ := List.mem_iff_getElem.mp hrt
  subst heq
  have ha : i < w.routeTables.length := by omega
  obtain ⟨⟨hid, htg⟩, hin, -⟩ := hrel i ha hb
  apply hin
  have htag0 : isTaggedTable w.routeTables[i] = true := by
    unfold isTaggedTable at htag ⊢
    rw [htg] at htag
    exact htag
  exact List.mem_map_of_mem _ (List.mem_filter.mpr ⟨List.getElem_mem ha, htag0⟩)

theorem claim_C2_route_convergence :
    (∀ (gid : String) (w w1 : World), update_route_tables gid w = (w1, none) →
       w1.routeTables.length = w.routeTables.length ∧
       ∀ rt ∈ w1.routeTables, isTaggedTable rt = true →
         defaultRoutes rt = [⟨defaultCidr, some gid⟩]) ∧
    (∀ (gid : String) (w : World), w.faults = [] →
       ∃ w1, update_route_tables gid w = (w1, none)) ∧
    (∀ (gid : String) (w : World) (e : PyErr) (fs : List (Option PyErr)),
       w.faults = some e :: fs → toleratedRouteErr e = false → taggedTableIds w ≠ [] →
       update_route_tables gid w = ({ w with faults := fs }, some e)) ∧
    (∀ (gid : String) (w : World) (e : PyErr) (fs : List (Option PyErr)),
       w.faults = none :: some e :: fs → taggedTableIds w ≠ [] →
       ∃ w1, update_route_tables gid w = (w1, some e)) := by
  refine ⟨?_, ?_, ?_, ?_⟩
  · intro gid w w1 h
    exact update_route_tables_converged gid w w1 h
  · intro gid w hf
    obtain ⟨w1, hrun, -, -⟩ := routeLoop_ok_of_nofaults gid (taggedTableIds w) w hf
      (fun tid ht => taggedTableIds_any w tid ht)
    exact ⟨w1, by rw [update_route_tables]; exact hrun⟩
  · intro gid w e fs hf hne hne2
    exact update_route_tables_delete_fault gid w e fs hf hne hne2
  · intro gid w e fs hf hne2
    exact update_route_tables_create_fault gid w e fs hf hne2

theorem claim_C2_route_convergence_witness :
    update_route_tables "nat-new" wBase = (wConv, none) ∧
    defaultRoutes ⟨"rtb-1", some "Yes", [⟨defaultCidr, some "nat-new"⟩]⟩ =
      [⟨defaultCidr, some "nat-new"⟩] ∧
    update_route_tables "nat-new" wFaulty =
      ({ wFaulty with faults := [] }, some (PyErr.clientError "RequestLimitExceeded")) := by
  refine ⟨by rfl, ?_, ?_⟩
  · have h := (claim_C2_route_convergence.1 "nat-new" wBase wConv (by rfl)).2
    exact h ⟨"rtb-1", some "Yes", [⟨defaultCidr, some "nat-new"⟩]⟩ (by decide) (by decide)
  · exact claim_C2_route_convergence.2.2.1 "nat-new" wFaulty
      (PyErr.clientError "RequestLimitExceeded") [] (by rfl) (by rfl) (by decide)

/-! ## Lemmas: traces and the request flow -/

theorem TraceExt_refl (w : World) (p : Effect → Prop) : TraceExt w w p :=
  ⟨[], by simp, by simp⟩

theorem TraceExt_trans {w w1 w2 : World} {p : Effect → Prop}
    (h1 : TraceExt w w1 p) (h2 : TraceExt w1 w2 p) : TraceExt w w2 p := by
  obtain ⟨t1, he1, hp1⟩ := h1
  obtain ⟨t2, he2, hp2⟩ := h2
  refine ⟨t1 ++ t2, by rw [he2, he1, List.append_assoc], ?_⟩
  intro eff he
  rcases List.mem_append.mp he with h | h
  · exact hp1 eff h
  · exact hp2 eff h

theorem TraceExt_mono {w w1 : World} {p q : Effect → Prop}
    (h : TraceExt w w1 p) (hpq : ∀ eff, p eff → q eff) : TraceExt w w1 q := by
  obtain ⟨t, he, hp⟩ := h
  exact ⟨t, he, fun eff hm => hpq eff (hp eff hm)⟩

theorem delete_route_traceExt (tid : String) (w : World) :
    TraceExt w (delete_route tid w).1 (fun eff => eff = Effect.deleteRoute tid) := by
  rcases hf : w.faults with _ | ⟨f, fs⟩
  · simp only [delete_route, popFault, hf]
    split
    · split
      · exact ⟨[Effect.deleteRoute tid], rfl, by simp⟩
      · exact ⟨[], by simp, by simp⟩
    · exact ⟨[], by simp, by simp⟩
  · cases f with
    | none =>
      simp only [delete_route, popFault, hf]
      split
      · split
        · exact ⟨[Effect.deleteRoute tid], rfl, by simp⟩
        · exact ⟨[], by simp, by simp⟩
      · exact ⟨[], by simp, by simp⟩
    | some e =>
      simp only [delete_route, popFault, hf]
      exact ⟨[], by simp, by simp⟩

theorem create_route_traceExt (tid gid : String) (w : World) :
    TraceExt w (create_route tid gid w).1 (fun eff => eff = Effect.createRoute tid gid) := by
  rcases hf : w.faults with _ | ⟨f, fs⟩
  · simp only [create_route, popFault, hf]
    split
    · split
      · exact ⟨[], by simp, by simp⟩
      · exact ⟨[Effect.createRoute tid gid], rfl, by simp⟩
    · exact ⟨[], by simp, by simp⟩
  · cases f with
    | none =>
      simp only [create_route, popFault, hf]
      split
      · split
        · exact ⟨[], by simp, by simp⟩
        · exact ⟨[Effect.createRoute tid gid], rfl, by simp⟩
      · exact ⟨[], by simp, by simp⟩
    | some e =>
      simp only [create_route, popFault, hf]
      exact ⟨[], by simp, by simp⟩

theorem routeLoop_traceExt (gid : String) :
    ∀ (l : List String) (w : World),
      TraceExt w (routeLoop gid l w).1
        (fun eff => (∃ tid, eff = Effect.deleteRoute tid) ∨
          ∃ tid, eff = Effect.createRoute tid gid) := by
  intro l
  induction l with
  | nil =>
    intro w
    simp only [routeLoop]
    exact TraceExt_refl _ _
  | cons tid rest ih =>
    intro w
    rcases hd : delete_route tid w with ⟨wd, rd⟩
    have hde : TraceExt w wd (fun eff => (∃ tid, eff = Effect.deleteRoute tid) ∨
        ∃ tid, eff = Effect.createRoute tid gid) := by
      have h0 := delete_route_traceExt tid w
      rw [hd] at h0
      exact TraceExt_mono h0 (fun eff he => Or.inl ⟨tid, he⟩)
    rcases hc : create_route tid gid wd with ⟨wc, rc⟩
    have hce : TraceExt wd wc (fun eff => (∃ tid, eff = Effect.deleteRoute tid) ∨
        ∃ tid, eff = Effect.createRoute tid gid) := by
      have h0 := create_route_traceExt tid gid wd
      rw [hc] at h0
      exact TraceExt_mono h0 (fun eff he => Or.inr ⟨tid, he⟩)
    cases rd with
    | none =>
      simp only [routeLoop, hd, hc, if_true]
      cases rc with
      | some e => exact TraceExt_trans hde hce
      | none => exact TraceExt_trans (TraceExt_trans hde hce) (ih wc)
    | some e =>
      simp only [routeLoop, hd, hc]
      by_cases ht : toleratedRouteErr e = true
      · rw [if_pos ht]
        cases rc with
        | some e2 => exact TraceExt_trans hde hce
        | none => exact TraceExt_trans (TraceExt_trans hde hce) (ih wc)
      · rw [if_neg ht]
        exact hde

theorem create_nat_gateway_traceExt (w : World) :
    TraceExt w (create_nat_gateway w).1
      (fun eff => (∃ a s g, eff = Effect.createNatGateway a s g) ∨
        ∃ g ts, eff = Effect.createTags g ts) := by
  rcases hr : randomChoice w.choice (publicSubnetIds w) with _ | s
  · simp only [create_nat_gateway, hr]
    exact TraceExt_refl _ _
  · rcases ha : (matchingAddresses w).head? with _ | a
    · simp only [create_nat_gateway, hr, ha, Option.map_none']
      exact TraceExt_refl _ _
    · simp only [create_nat_gateway, hr, ha, Option.map_some']
      refine ⟨[Effect.createNatGateway a.allocationId s w.freshId,
        Effect.createTags w.freshId w.now], ?_, ?_⟩
      · simp [waitAvailable, createLastRequestedTag, emit]
      · intro eff he
        simp only [List.mem_cons, List.not_mem_nil, or_false] at he
        rcases he with h | h
        · exact Or.inl ⟨_, _, _, h⟩
        · exact Or.inr ⟨_, _, h⟩

theorem create_nat_gateway_ok (w wc : World) (gid : String)
    (h : create_nat_gateway w = (wc, Except.ok gid)) :
    gid = w.freshId ∧
    wc.routeTables = w.routeTables ∧ wc.now = w.now ∧ wc.vpcId = w.vpcId ∧
    wc.vpcName = w.vpcName ∧ wc.freshId = w.freshId ∧ wc.faults = w.faults ∧
    ∃ a s, Effect.createNatGateway a s w.freshId ∈ wc.trace := by
  rcases hr : randomChoice w.choice (publicSubnetIds w) with _ | s
  · simp [create_nat_gateway, hr] at h
  · rcases ha : (matchingAddresses w).head? with _ | a
    · simp [create_nat_gateway, hr, ha] at h
    · simp only [create_nat_gateway, hr, ha, Option.map_some', Prod.mk.injEq] at h
      obtain ⟨hw, hg⟩ := h
      simp only [Except.ok.injEq] at hg
      subst hw
      refine ⟨hg.symm, by simp [waitAvailable, createLastRequestedTag, emit],
        by simp [waitAvailable, createLastRequestedTag, emit],
        by simp [waitAvailable, createLastRequestedTag, emit],
        by simp [waitAvailable, createLastRequestedTag, emit],
        by simp [waitAvailable, createLastRequestedTag, emit],
        by simp [waitAvailable, createLastRequestedTag, emit],
        a.allocationId, s, by simp [waitAvailable, createLastRequestedTag, emit]⟩

theorem touchGWList_cons (now : Int) (e : GwEntry) (gl : List GwEntry) (gs : List GW) :
    touchGWList now (e :: gl) gs =
      touchGWList now gl (gs.map fun g =>
        if g.natGatewayId == e.gatewayId then { g with lastRequested := some now }
        else g) := by
  unfold touchGWList
  rw [List.map_map]
  refine List.map_congr_left ?_
  intro g _
  by_cases hce : e.gatewayId = g.natGatewayId
  · by_cases hcg : gl.any (fun x => x.gatewayId == g.natGatewayId) = true
    · simp [Function.comp, hce, hcg, List.any_cons]
    · simp [Function.comp, hce, hcg, List.any_cons]
  · have hce2 : ¬ g.natGatewayId = e.gatewayId := fun hx => hce hx.symm
    by_cases hcg : gl.any (fun x => x.gatewayId == g.natGatewayId) = true
    · simp [Function.comp, hce, hce2, hcg, List.any_cons]
    · simp [Function.comp, hce, hce2, hcg, List.any_cons]

theorem touchAll_eq (gl : List GwEntry) : ∀ w : World,
    touchAll gl w =
      { w with
        gateways := touchGWList w.now gl w.gateways,
        trace := w.trace ++ gl.map (fun e => Effect.createTags e.gatewayId w.now) } := by
  induction gl with
  | nil =>
    intro w
    simp [touchAll, touchGWList]
  | cons e rest ih =>
    intro w
    have hstep : touchAll (e :: rest) w =
        touchAll rest (createLastRequestedTag e.gatewayId w) := rfl
    rw [hstep, ih]
    simp only [createLastRequestedTag, emit]
    rw [touchGWList_cons]
    simp [List.append_assoc]

theorem finishRequest_ok (ev : Event) (info : Info) (w w1 : World) (info2 : Info)
    (h : finishRequest ev info w = (w1, Except.ok info2)) :
    info2 = info ∧ ∃ body, ev.records.head? = some body ∧
      w1 = invoke_lambda body (match ev.codePipelineJob with
        | some jid => emit (Effect.putJobSuccess jid) w
        | none => w) := by
  rcases hb : ev.records.head? with _ | body
  · simp [finishRequest, hb] at h
  · simp only [finishRequest, hb, Prod.mk.injEq, Except.ok.injEq] at h
    exact ⟨h.2.symm, body, rfl, h.1.symm⟩

theorem finishRequest_err (ev : Event) (info : Info) (w w1 : World) (e : PyErr)
    (h : finishRequest ev info w = (w1, Except.error e)) :
    e = PyErr.keyError ∧ ev.records.head? = none ∧
      w1 = (match ev.codePipelineJob with
        | some jid => emit (Effect.putJobSuccess jid) w
        | none => w) := by
  rcases hb : ev.records.head? with _ | body
  · simp only [finishRequest, hb, Prod.mk.injEq, Except.error.injEq] at h
    exact ⟨h.2.symm, rfl, h.1.symm⟩
  · simp [finishRequest, hb] at h

theorem request_body_ok (ev : Event) (w w1 : World) (info : Info)
    (h : request_body ev w = (w1, Except.ok info)) :
    request_core w = ((request_core w).1, Except.ok info) ∧
    finishRequest ev info (request_core w).1 = (w1, Except.ok info) := by
  rcases hc : (request_core w).2 with e | info0
  · simp only [request_body, hc] at h
    simp at h
  · simp only [request_body, hc] at h
    have hfe := finishRequest_ok ev info0 (request_core w).1 w1 info h
    have : info0 = info := hfe.1.symm
    subst this
    exact ⟨by rw [← hc], h⟩

theorem handler_ok (ev : Event) (w w1 : World) (info : Info)
    (h : request_gateway_handler ev w = (w1, Except.ok info)) :
    request_body ev w = (w1, Except.ok info) := by
  rcases hb : (request_body ev w).2 with e | info0
  · simp only [request_gateway_handler, hb] at h
    cases hj : ev.codePipelineJob with
    | none => simp [hj] at h
    | some jid => simp [hj] at h
  · simp only [request_gateway_handler, hb, Prod.mk.injEq, Except.ok.injEq] at h
    obtain ⟨hw, hi⟩ := h
    rw [← hw, ← hi, ← hb]

theorem handler_err (ev : Event) (w w1 : World) (e : PyErr)
    (h : request_body ev w = (w1, Except.error e)) :
    request_gateway_handler ev w =
      ((match ev.codePipelineJob with
        | some jid => emit (Effect.putJobFailure jid e) w1
        | none => w1), Except.error e) := by
  have h2 : (request_body ev w).2 = Except.error e := by rw [h]
  have h1 : (request_body ev w).1 = w1 := by rw [h]
  simp only [request_gateway_handler, h2, h1]
  cases hj : ev.codePipelineJob with
  | none => simp [hj]
  | some jid => simp [hj]

theorem request_core_some (w : World) (gl : List GwEntry)
    (hl : list_nat_gateways w = some gl) :
    request_core w = (touchAll gl w, Except.ok ⟨200, some true⟩) := by
  simp [request_core, hl]

theorem request_core_traceExt (w : World) :
    TraceExt w (request_core w).1 coreEffect := by
  rcases hl : list_nat_gateways w with _ | gl
  · rcases hc : create_nat_gateway w with ⟨wc, rc⟩
    have hce : TraceExt w wc coreEffect := by
      have h0 := create_nat_gateway_traceExt w
      rw [hc] at h0
      refine TraceExt_mono h0 ?_
      intro eff he
      rcases he with ⟨a, s, g, heq⟩ | ⟨g, ts, heq⟩ <;> subst heq <;> trivial
    cases rc with
    | error e =>
      simp only [request_core, hl, hc]
      exact hce
    | ok gid =>
      rcases hu : update_route_tables gid wc with ⟨wu, ru⟩
      have hue : TraceExt wc wu coreEffect := by
        have h0 := routeLoop_traceExt gid (taggedTableIds wc) wc
        rw [show routeLoop gid (taggedTableIds wc) wc = (wu, ru) from hu] at h0
        refine TraceExt_mono h0 ?_
        intro eff he
        rcases he with ⟨tid, heq⟩ | ⟨tid, heq⟩ <;> subst heq <;> trivial
      cases ru with
      | some e =>
        simp only [request_core, hl, hc, hu]
        exact TraceExt_trans hce hue
      | none =>
        simp only [request_core, hl, hc, hu]
        exact TraceExt_trans hce hue
  · rw [request_core_some w gl hl, touchAll_eq]
    refine ⟨gl.map (fun e => Effect.createTags e.gatewayId w.now), rfl, ?_⟩
    intro eff he
    obtain ⟨e, -, heq⟩ := List.mem_map.mp he
    subst heq
    trivial

theorem handler_touch_branch (ev : Event) (w : World) (gl : List GwEntry)
    (w1 : World) (info : Info) (hl : list_nat_gateways w = some gl)
    (h : request_gateway_handler ev w = (w1, Except.ok info)) :
    info = ⟨200, some true⟩ ∧
    ∃ body, ev.records.head? = some body ∧
      w1 = invoke_lambda body (match ev.codePipelineJob with
        | some jid => emit (Effect.putJobSuccess jid) (touchAll gl w)
        | none => touchAll gl w) := by
  obtain ⟨hcore, hfin⟩ := request_body_ok ev w w1 info (handler_ok ev w w1 info h)
  have hcs := request_core_some w gl hl
  have hfst : (request_core w).1 = touchAll gl w := by rw [hcs]
  have hsnd : (request_core w).2 = Except.ok (⟨200, some true⟩ : Info) := by rw [hcs]
  have hsnd2 : (request_core w).2 = Except.ok info := by rw [hcore]
  have hinfo : info = ⟨200, some true⟩ := by
    have := hsnd2.symm.trans hsnd
    simpa using this
  rw [hfst] at hfin
  obtain ⟨-, body, hbody, hw1⟩ := finishRequest_ok ev info (touchAll gl w) w1 info hfin
  exact ⟨hinfo, body, hbody, hw1⟩

theorem handler_provision_branch (ev : Event) (w : World) (w1 : World) (info : Info)
    (hl : list_nat_gateways w = none)
    (h : request_gateway_handler ev w = (w1, Except.ok info)) :
    info = ⟨200, none⟩ ∧
    ∃ wc wu body, create_nat_gateway w = (wc, Except.ok w.freshId) ∧
      update_route_tables w.freshId wc = (wu, none) ∧
      ev.records.head? = some body ∧
      w1 = invoke_lambda body (match ev.codePipelineJob with
        | some jid => emit (Effect.putJobSuccess jid) wu
        | none => wu) := by
  obtain ⟨hcore, hfin⟩ := request_body_ok ev w w1 info (handler_ok ev w w1 info h)
  have hsnd2 : (request_core w).2 = Except.ok info := by rw [hcore]
  rcases hc : create_nat_gateway w with ⟨wc, rc⟩
  cases rc with
  | error e =>
    have he : (request_core w).2 = Except.error e := by simp [request_core, hl, hc]
    rw [he] at hsnd2
    simp at hsnd2
  | ok gid =>
    rcases hu : update_route_tables gid wc with ⟨wu, ru⟩
    cases ru with
    | some e =>
      have he : (request_core w).2 = Except.error e := by simp [request_core, hl, hc, hu]
      rw [he] at hsnd2
      simp at hsnd2
    | none =>
      have hgid : gid = w.freshId := (create_nat_gateway_ok w wc gid hc).1
      subst hgid
      have hcr : request_core w = (wu, Except.ok (⟨200, none⟩ : Info)) := by
        simp [request_core, hl, hc, hu]
      have hfst : (request_core w).1 = wu := by rw [hcr]
      have hsnd : (request_core w).2 = Except.ok (⟨200, none⟩ : Info) := by rw [hcr]
      have hinfo : info = ⟨200, none⟩ := by
        have := hsnd2.symm.trans hsnd
        simpa using this
      rw [hfst] at hfin
      obtain ⟨-, body, hbody, hw1⟩ := finishRequest_ok ev info wu w1 info hfin
      exact ⟨hinfo, wc, wu, body, rfl, hu, hbody, hw1⟩

theorem jobSuccess_not_in_core (w : World) (jid : String)
    (hnot : Effect.putJobSuccess jid ∉ w.trace)
    (hin : Effect.putJobSuccess jid ∈ (request_core w).1.trace) : False := by
  obtain ⟨t, hte, htp⟩ := request_core_traceExt w
  rw [hte] at hin
  rcases List.mem_append.mp hin with h | h
  · exact hnot h
  · exact htp _ h

/-- Claim C6: during provisioning, when no pre-tagged public subnet exists,
subnet selection (`random.choice` on the empty list) raises, and when a
subnet exists but no pre-tagged address does, the provisioning call itself
raises at boto3 parameter validation (a `None` allocation id is never
silently sent to the provider); in both cases the world is unchanged — in
particular no gateway-creation request reaches the provider. -/
theorem claim_C6_provision_errors :
    (∀ w : World, publicSubnetIds w = [] →
       create_nat_gateway w = (w, Except.error PyErr.indexError)) ∧
    (∀ w : World, publicSubnetIds w ≠ [] → matchingAddresses w = [] →
       create_nat_gateway w = (w, Except.error PyErr.paramValidation)) := by
  constructor
  · intro w h
    simp [create_nat_gateway, randomChoice, h]
  · intro w hs ha
    rcases hl : publicSubnetIds w with _ | ⟨s, rest⟩
    · exact absurd hl hs
    · have hlt : w.choice % (s :: rest).length < (s :: rest).length :=
        Nat.mod_lt _ (by simp)
      have hx : randomChoice w.choice (s :: rest) =
          some ((s :: rest).get ⟨w.choice % (s :: rest).length, hlt⟩) := by
        simp [randomChoice, List.get?_eq_get hlt]
      simp [create_nat_gateway, hl, hx, ha]

theorem claim_C6_provision_errors_witness :
    create_nat_gateway wNoSubnets = (wNoSubnets, Except.error PyErr.indexError) ∧
    create_nat_gateway wNoAddress = (wNoAddress, Except.error PyErr.paramValidation) :=
  ⟨claim_C6_provision_errors.1 wNoSubnets (by rfl),
   claim_C6_provision_errors.2 wNoAddress (by decide) (by rfl)⟩

/-- Claim C7: if anything in the request flow's try-block (inventory query,
provisioning, route convergence, activity refresh, or the tail of the
block) raises, then: with a CodePipeline job attached, a failure report
carrying the exception is recorded for that job and the exception is
re-raised; without a job the exception is simply re-raised; and a success
report for a job can appear only when the inventory/provision/converge/touch
part completed without error (and only for the job the event carries). -/
theorem claim_C7_request_error_reporting :
    (∀ (ev : Event) (w w1 : World) (e : PyErr) (jid : String),
       request_body ev w = (w1, Except.error e) → ev.codePipelineJob = some jid →
       request_gateway_handler ev w =
         (emit (Effect.putJobFailure jid e) w1, Except.error e) ∧
       Effect.putJobFailure jid e ∈ (request_gateway_handler ev w).1.trace) ∧
    (∀ (ev : Event) (w w1 : World) (e : PyErr),
       request_body ev w = (w1, Except.error e) → ev.codePipelineJob = none →
       request_gateway_handler ev w = (w1, Except.error e)) ∧
    (∀ (ev : Event) (w w1 : World) (r : Except PyErr Info) (jid : String),
       request_gateway_handler ev w = (w1, r) →
       Effect.putJobSuccess jid ∉ w.trace →
       Effect.putJobSuccess jid ∈ w1.trace →
       ev.codePipelineJob = some jid ∧
       ∃ info w0, request_core w = (w0, Except.ok info)) := by
  refine ⟨?_, ?_, ?_⟩
  · intro ev w w1 e jid hbody hj
    have hh := handler_err ev w w1 e hbody
    rw [hj] at hh
    refine ⟨hh, ?_⟩
    rw [hh]
    simp [emit]
  · intro ev w w1 e hbody hj
    have hh := handler_err ev w w1 e hbody
    rw [hj] at hh
    exact hh
  · intro ev w w1 r jid hrun hnotin hin
    rcases hcore : (request_core w).2 with e | info0
    · -- the core raised: no success report can have been recorded
      exfalso
      have hbody : request_body ev w = ((request_core w).1, Except.error e) := by
        simp only [request_body, hcore]
      have hh := handler_err ev w ((request_core w).1) e hbody
      rw [hh] at hrun
      have hw1 : w1 = (match ev.codePipelineJob with
          | some jid => emit (Effect.putJobFailure jid e) ((request_core w).1)
          | none => ((request_core w).1)) := by
        have := congrArg Prod.fst hrun
        exact this.symm
      cases hj : ev.codePipelineJob with
      | none =>
        rw [hj] at hw1
        rw [hw1] at hin
        exact jobSuccess_not_in_core w jid hnotin hin
      | some jid2 =>
        rw [hj] at hw1
        rw [hw1] at hin
        simp only [emit, List.mem_append, List.mem_singleton] at hin
        rcases hin with hin | hin
        · exact jobSuccess_not_in_core w jid hnotin hin
        · simp at hin
    · -- the core completed; analyze the tail of the try-block
      refine ⟨?_, info0, (request_core w).1, by rw [← hcore]⟩
      have hbody0 : request_body ev w = finishRequest ev info0 ((request_core w).1) := by
        simp only [request_body, hcore]
      cases hj : ev.codePipelineJob with
      | none =>
        exfalso
        rcases hfb : ev.records.head? with _ | body
        · have hb2 : request_body ev w = ((request_core w).1, Except.error PyErr.keyError) := by
            rw [hbody0]
            simp [finishRequest, hfb, hj]
          have hh := handler_err ev w _ _ hb2
          rw [hj] at hh
          rw [hh] at hrun
          have hw1 : w1 = (request_core w).1 := (congrArg Prod.fst hrun).symm
          rw [hw1] at hin
          exact jobSuccess_not_in_core w jid hnotin hin
        · have hb2 : request_body ev w =
              (invoke_lambda body ((request_core w).1), Except.ok info0) := by
            rw [hbody0]
            simp [finishRequest, hfb, hj]
          have h2 : (request_body ev w).2 = Except.ok info0 := by rw [hb2]
          have h1 : (request_body ev w).1 = invoke_lambda body ((request_core w).1) := by
            rw [hb2]
          have hh : request_gateway_handler ev w =
              (invoke_lambda body ((request_core w).1), Except.ok info0) := by
            simp only [request_gateway_handler, h2, h1]
          rw [hh] at hrun
          have hw1 : w1 = invoke_lambda body ((request_core w).1) :=
            (congrArg Prod.fst hrun).symm
          rw [hw1] at hin
          simp only [invoke_lambda, emit, List.mem_append, List.mem_singleton] at hin
          rcases hin with hin | hin
          · exact jobSuccess_not_in_core w jid hnotin hin
          · simp at hin
      | some jid2 =>
        -- the success report names the job the event carries
        suffices hjj : jid2 = jid by rw [hjj]
        rcases hfb : ev.records.head? with _ | body
        · have hb2 : request_body ev w =
              (emit (Effect.putJobSuccess jid2) ((request_core w).1),
                Except.error PyErr.keyError) := by
            rw [hbody0]
            simp [finishRequest, hfb, hj]
          have hh := handler_err ev w _ _ hb2
          rw [hj] at hh
          rw [hh] at hrun
          have hw1 : w1 = emit (Effect.putJobFailure jid2 PyErr.keyError)
              (emit (Effect.putJobSuccess jid2) ((request_core w).1)) :=
            (congrArg Prod.fst hrun).symm
          rw [hw1] at hin
          simp only [emit, List.mem_append, List.mem_singleton, List.append_assoc] at hin
          rcases hin with hin | hin | hin
          · exact absurd (jobSuccess_not_in_core w jid hnotin hin) not_false
          · exact (Effect.putJobSuccess.inj hin).symm
          · simp at hin
        · have hb2 : request_body ev w =
              (invoke_lambda body (emit (Effect.putJobSuccess jid2) ((request_core w).1)),
                Except.ok info0) := by
            rw [hbody0]
            simp [finishRequest, hfb, hj]
          have h2 : (request_body ev w).2 = Except.ok info0 := by rw [hb2]
          have h1 : (request_body ev w).1 =
              invoke_lambda body (emit (Effect.putJobSuccess jid2) ((request_core w).1)) := by
            rw [hb2]
          have hh : request_gateway_handler ev w =
              (invoke_lambda body (emit (Effect.putJobSuccess jid2) ((request_core w).1)),
                Except.ok info0) := by
            simp only [request_gateway_handler, h2, h1]
          rw [hh] at hrun
          have hw1 : w1 = invoke_lambda body
              (emit (Effect.putJobSuccess jid2) ((request_core w).1)) :=
            (congrArg Prod.fst hrun).symm
          rw [hw1] at hin
          simp only [invoke_lambda, emit, List.mem_append, List.mem_singleton,
            List.append_assoc] at hin
          rcases hin with hin | hin | hin
          · exact absurd (jobSuccess_not_in_core w jid hnotin hin) not_false
          · exact (Effect.putJobSuccess.inj hin).symm
          · simp at hin

theorem claim_C7_request_error_reporting_witness :
    request_body sampleEv wNoSubnets = (wNoSubnets, Except.error PyErr.indexError) ∧
    request_gateway_handler sampleEv wNoSubnets =
      (emit (Effect.putJobFailure "job-1" PyErr.indexError) wNoSubnets,
        Except.error PyErr.indexError) ∧
    Effect.putJobFailure "job-1" PyErr.indexError ∈
      (request_gateway_handler sampleEv wNoSubnets).1.trace := by
  have h := claim_C7_request_error_reporting.1 sampleEv wNoSubnets wNoSubnets
    PyErr.indexError "job-1" (by rfl) (by rfl)
  exact ⟨by rfl, h.1, h.2⟩

theorem list_nat_gateways_some_eq (w : World) (gl : List GwEntry)
    (h : list_nat_gateways w = some gl) :
    gl = (filteredGateways w).map extractEntry := by
  simp only [list_nat_gateways] at h
  split at h
  · exact (Option.some.inj h).symm
  · simp at h

theorem list_nat_gateways_of_ne (w : World) (h : filteredGateways w ≠ []) :
    list_nat_gateways w = some ((filteredGateways w).map extractEntry) := by
  have hpos : 0 < ((filteredGateways w).map extractEntry).length := by
    rw [List.length_map, List.length_pos]
    exact h
  simp only [list_nat_gateways, gt_iff_lt]
  rw [if_pos hpos]

theorem list_nat_gateways_some_ne (w : World) (gl : List GwEntry)
    (h : list_nat_gateways w = some gl) : filteredGateways w ≠ [] := by
  intro hnil
  simp [list_nat_gateways, hnil] at h

theorem touchGWList_length (now : Int) (gl : List GwEntry) (gs : List GW) :
    (touchGWList now gl gs).length = gs.length := by
  simp [touchGWList]

theorem touchGWList_getElem (now : Int) (gl : List GwEntry) (gs : List GW) (i : Nat)
    (hi : i < gs.length) (hi2 : i < (touchGWList now gl gs).length)
    (hany : gl.any (fun e => e.gatewayId == gs[i].natGatewayId) = true) :
    (touchGWList now gl gs)[i] = { gs[i] with lastRequested := some now } := by
  unfold touchGWList
  rw [List.getElem_map, if_pos hany]

theorem filtered_entry_any (w : World) (gl : List GwEntry) (g : GW)
    (hgl : gl = (filteredGateways w).map extractEntry)
    (hmem : g ∈ w.gateways) (hp : natGatewayFilter w g = true) :
    gl.any (fun e => e.gatewayId == g.natGatewayId) = true := by
  subst hgl
  refine List.any_eq_true.mpr ⟨extractEntry g,
    List.mem_map_of_mem _ (List.mem_filter.mpr ⟨hmem, hp⟩), ?_⟩
  simp [extractEntry]

theorem handler_touch_facts (ev : Event) (w : World) (gl : List GwEntry)
    (w1 : World) (info : Info) (hl : list_nat_gateways w = some gl)
    (h : request_gateway_handler ev w = (w1, Except.ok info)) :
    info = ⟨200, some true⟩ ∧
    w1.vpcId = w.vpcId ∧ w1.gateways = touchGWList w.now gl w.gateways ∧
    ∃ t, w1.trace = w.trace ++ t ∧
      ∀ eff ∈ t, ∀ a s g, eff ≠ Effect.createNatGateway a s g := by
  obtain ⟨hinfo, body, hbody, hw1⟩ := handler_touch_branch ev w gl w1 info hl h
  have htouch := touchAll_eq gl w
  cases hj : ev.codePipelineJob with
  | none =>
    rw [hj] at hw1
    subst hw1
    refine ⟨hinfo, ?_, ?_, ?_⟩
    · simp [invoke_lambda, emit, htouch]
    · simp [invoke_lambda, emit, htouch]
    · refine ⟨gl.map (fun e => Effect.createTags e.gatewayId w.now) ++
        [Effect.invokeLambda body], ?_, ?_⟩
      · simp [invoke_lambda, emit, htouch]
      · intro eff he
        rcases List.mem_append.mp he with hm | hm
        · obtain ⟨e, -, heq⟩ := List.mem_map.mp hm
          subst heq
          intro a s g
          simp
        · simp only [List.mem_singleton] at hm
          subst hm
          intro a s g
          simp
  | some jid =>
    rw [hj] at hw1
    subst hw1
    refine ⟨hinfo, ?_, ?_, ?_⟩
    · simp [invoke_lambda, emit, htouch]
    · simp [invoke_lambda, emit, htouch]
    · refine ⟨gl.map (fun e => Effect.createTags e.gatewayId w.now) ++
        [Effect.putJobSuccess jid, Effect.invokeLambda body], ?_, ?_⟩
      · simp [invoke_lambda, emit, htouch]
      · intro eff he
        rcases List.mem_append.mp he with hm | hm
        · obtain ⟨e, -, heq⟩ := List.mem_map.mp hm
          subst heq
          intro a s g
          simp
        · simp only [List.mem_cons, List.not_mem_nil, or_false] at hm
          rcases hm with hm | hm <;> subst hm <;> intro a s g <;> simp

/-- Claim C10: the inventory query returns the sentinel `None` exactly when
no pending/available gateway matches the target network, and otherwise the
full list of extracted (identity, state, creation time, last-requested)
entries; the check flow takes its early-return branch exactly on the `None`
result, and the request flow takes the provisioning branch (result without
`nat-existing`) exactly on the `None` result. -/
theorem claim_C10_inventory_sentinel :
    (∀ w : World, list_nat_gateways w = none ↔ filteredGateways w = []) ∧
    (∀ w : World, filteredGateways w ≠ [] →
       list_nat_gateways w = some ((filteredGateways w).map extractEntry)) ∧
    (∀ (ev : Event) (w : World),
       check_gateway_required ev w = (w, Except.ok none) ↔
         list_nat_gateways w = none) ∧
    (∀ (ev : Event) (w w1 : World) (info : Info),
       request_gateway_handler ev w = (w1, Except.ok info) →
       (info.natExisting = none ↔ list_nat_gateways w = none)) := by
  refine ⟨?_, ?_, ?_, ?_⟩
  · intro w
    constructor
    · intro h
      by_contra hne
      rw [list_nat_gateways_of_ne w hne] at h
      simp at h
    · intro h
      simp [list_nat_gateways, h]
  · intro w h
    exact list_nat_gateways_of_ne w h
  · intro ev w
    constructor
    · intro h
      rcases hl : list_nat_gateways w with _ | gl
      · rfl
      · exfalso
        rcases hb : ev.records.head? with _ | body
        · simp [check_gateway_required, hl, hb] at h
        · simp [check_gateway_required, hl, hb] at h
    · intro h
      simp [check_gateway_required, h]
  · intro ev w w1 info h
    rcases hl : list_nat_gateways w with _ | gl
    · obtain ⟨hinfo, -⟩ := handler_provision_branch ev w w1 info hl h
      simp [hinfo]
    · obtain ⟨hinfo, -⟩ := handler_touch_branch ev w gl w1 info hl h
      simp [hinfo, hl]

theorem claim_C10_inventory_sentinel_witness :
    (list_nat_gateways wBase = none ↔ filteredGateways wBase = []) ∧
    request_gateway_handler sampleEv wExisting =
      ((request_gateway_handler sampleEv wExisting).1,
        Except.ok ⟨200, some true⟩) ∧
    ((⟨200, some true⟩ : Info).natExisting = none ↔
      list_nat_gateways wExisting = none) := by
  refine ⟨claim_C10_inventory_sentinel.1 wBase, by rfl, ?_⟩
  exact claim_C10_inventory_sentinel.2.2.2 sampleEv wExisting
    (request_gateway_handler sampleEv wExisting).1 ⟨200, some true⟩ (by rfl)

/-- Claim C9: route-table routes are mutated only by the route converger.
The check flow — including the gateway deletion it issues — leaves every
route table unchanged and records no route deletion or creation effect; the
gateway-deletion call by itself leaves route tables unchanged; and a
request-flow run that finds an existing gateway (so the converger is not
invoked) leaves every route table unchanged, whatever its outcome. -/
theorem claim_C9_routes_only_converger :
    (∀ (ev : Event) (w : World) (p : World × Except PyErr (Option CheckInfo)),
       check_gateway_required ev w = p →
       p.1.routeTables = w.routeTables ∧
       ∃ t, p.1.trace = w.trace ++ t ∧
         ∀ eff ∈ t, (∀ tid, eff ≠ Effect.deleteRoute tid) ∧
           (∀ tid gid, eff ≠ Effect.createRoute tid gid)) ∧
    (∀ (gid : String) (w : World),
       (delete_nat_gateway gid w).routeTables = w.routeTables) ∧
    (∀ (ev : Event) (w : World) (gl : List GwEntry)
       (p : World × Except PyErr Info),
       list_nat_gateways w = some gl → request_gateway_handler ev w = p →
       p.1.routeTables = w.routeTables) := by
  refine ⟨?_, ?_, ?_⟩
  · intro ev w p h
    rcases hl : list_nat_gateways w with _ | gl
    · simp only [check_gateway_required, hl] at h
      subst h
      exact ⟨rfl, [], by simp, by simp⟩
    · rcases hb : ev.records.head? with _ | body
      · simp only [check_gateway_required, hl, hb] at h
        subst h
        refine ⟨check_loop_routeTables w.now gl w, ?_⟩
        refine ⟨(gl.filter (reapDecision w.now)).map
          (fun e => Effect.deleteNatGateway e.gatewayId),
          check_loop_trace w.now gl w, ?_⟩
        intro eff he
        obtain ⟨e, -, heq⟩ := List.mem_map.mp he
        subst heq
        exact ⟨fun tid => by simp, fun tid gid => by simp⟩
      · simp only [check_gateway_required, hl, hb] at h
        subst h
        constructor
        · simp [invoke_lambda, emit, check_loop_routeTables]
        · refine ⟨(gl.filter (reapDecision w.now)).map
            (fun e => Effect.deleteNatGateway e.gatewayId) ++
            [Effect.invokeLambda body], ?_, ?_⟩
          · simp [invoke_lambda, emit, check_loop_trace]
          · intro eff he
            rcases List.mem_append.mp he with hm | hm
            · obtain ⟨e, -, heq⟩ := List.mem_map.mp hm
              subst heq
              exact ⟨fun tid => by simp, fun tid gid => by simp⟩
            · simp only [List.mem_singleton] at hm
              subst hm
              exact ⟨fun tid => by simp, fun tid gid => by simp⟩
  · intro gid w
    rfl
  · intro ev w gl p hl h
    have hcore1 : (request_core w).1 = touchAll gl w := by
      rw [request_core_some w gl hl]
    have htouch : (touchAll gl w).routeTables = w.routeTables := by
      rw [touchAll_eq]
    have hbodyrt : (request_body ev w).1.routeTables = w.routeTables := by
      simp only [request_body]
      rcases hc2 : (request_core w).2 with e | info0
      · simp only [hc2]
        rw [hcore1]
        exact htouch
      · simp only [hc2]
        rcases hb : ev.records.head? with _ | body <;>
          cases hj : ev.codePipelineJob <;>
            simp [finishRequest, hb, hj, invoke_lambda, emit, hcore1, htouch]
    have hp1 : p.1.routeTables = (request_body ev w).1.routeTables := by
      rw [← h]
      simp only [request_gateway_handler]
      rcases hb2 : (request_body ev w).2 with e | info0
      · simp only [hb2]
        cases hj : ev.codePipelineJob <;> simp [hj, emit]
      · simp only [hb2]
    rw [hp1, hbodyrt]

theorem claim_C9_routes_only_converger_witness :
    (check_gateway_required sampleEv wBoundary).1.routeTables =
      wBoundary.routeTables ∧
    (delete_nat_gateway "g-a" wBoundary).routeTables = wBoundary.routeTables ∧
    (request_gateway_handler sampleEv wExisting).1.routeTables =
      wExisting.routeTables := by
  refine ⟨?_, claim_C9_routes_only_converger.2.1 "g-a" wBoundary, ?_⟩
  · exact (claim_C9_routes_only_converger.1 sampleEv wBoundary
      (check_gateway_required sampleEv wBoundary) (by rfl)).1
  · exact claim_C9_routes_only_converger.2.2 sampleEv wExisting
      [⟨"g-a", "available", 0, some 100⟩]
      (request_gateway_handler sampleEv wExisting) (by decide) (by rfl)

/-- Claim C4: on the request flow, an empty inventory leads to provisioning
and route convergence — the returned payload has `statusCode` 200 and no
`nat-existing` key, a gateway-creation request for the fresh identity is in
the trace, and every tagged route table ends converged on the new gateway;
a non-empty inventory leads to no provisioning, the result carries
`nat-existing = true`, and every discovered gateway's `LastRequested` tag is
set to the current instant; and two sequential request calls while a
gateway exists provision zero gateways and refresh the tag both times. -/
theorem claim_C4_request_flow :
    (∀ (ev : Event) (w w1 : World) (info : Info),
       list_nat_gateways w = none →
       request_gateway_handler ev w = (w1, Except.ok info) →
       info.statusCode = 200 ∧ info.natExisting = none ∧
       (∃ a s, Effect.createNatGateway a s w.freshId ∈ w1.trace) ∧
       ∀ rt ∈ w1.routeTables, isTaggedTable rt = true →
         defaultRoutes rt = [⟨defaultCidr, some w.freshId⟩]) ∧
    (∀ (ev : Event) (w : World) (gl : List GwEntry) (w1 : World) (info : Info),
       list_nat_gateways w = some gl →
       request_gateway_handler ev w = (w1, Except.ok info) →
       info.statusCode = 200 ∧ info.natExisting = some true ∧
       (∃ t, w1.trace = w.trace ++ t ∧
          ∀ eff ∈ t, ∀ a s g, eff ≠ Effect.createNatGateway a s g) ∧
       w1.gateways.length = w.gateways.length ∧
       (∀ i, (hi : i < w.gateways.length) → (hi1 : i < w1.gateways.length) →
          natGatewayFilter w w.gateways[i] = true →
          w1.gateways[i] = { w.gateways[i] with lastRequested := some w.now })) ∧
    (∀ (ev ev2 : Event) (w : World) (t2 : Int) (w1 w2 : World) (ia ib : Info),
       list_nat_gateways w ≠ none →
       request_gateway_handler ev w = (w1, Except.ok ia) →
       request_gateway_handler ev2 { w1 with now := t2 } = (w2, Except.ok ib) →
       (∃ t, w2.trace = w.trace ++ t ∧
          ∀ eff ∈ t, ∀ a s g, eff ≠ Effect.createNatGateway a s g) ∧
       ∀ i, (hi : i < w.gateways.length) → (hi1 : i < w1.gateways.length) →
         (hi2 : i < w2.gateways.length) →
         natGatewayFilter w w.gateways[i] = true →
         w1.gateways[i].lastRequested = some w.now ∧
         w2.gateways[i].lastRequested = some t2) := by
  refine ⟨?_, ?_, ?_⟩
  · intro ev w w1 info hl h
    obtain ⟨hinfo, wc, wu, body, hc, hu, hbody, hw1⟩ :=
      handler_provision_branch ev w w1 info hl h
    subst hinfo
    obtain ⟨-, -, -, -, -, -, -, a, s2, hmem⟩ :=
      create_nat_gateway_ok w wc w.freshId hc
    have hTu : TraceExt wc wu (fun eff => (∃ tid, eff = Effect.deleteRoute tid) ∨
        ∃ tid, eff = Effect.createRoute tid w.freshId) := by
      have h0 := routeLoop_traceExt w.freshId (taggedTableIds wc) wc
      rw [show routeLoop w.freshId (taggedTableIds wc) wc = (wu, none) from hu] at h0
      exact h0
    obtain ⟨tu, htu, -⟩ := hTu
    have hmemu : Effect.createNatGateway a s2 w.freshId ∈ wu.trace := by
      rw [htu]
      exact List.mem_append.mpr (Or.inl hmem)
    obtain ⟨hlen, hconv⟩ := update_route_tables_converged w.freshId wc wu hu
    refine ⟨rfl, rfl, ⟨a, s2, ?_⟩, ?_⟩
    · subst hw1
      cases hj : ev.codePipelineJob <;>
        simp [hj, invoke_lambda, emit, hmemu]
    · intro rt hrt htag
      apply hconv rt ?_ htag
      subst hw1
      cases hj : ev.codePipelineJob with
      | none =>
        rw [hj] at hrt
        simpa [invoke_lambda, emit] using hrt
      | some jid =>
        rw [hj] at hrt
        simpa [invoke_lambda, emit] using hrt
  · intro ev w gl w1 info hl h
    obtain ⟨hinfo, hvpc, hgw, t, htr, hnp⟩ := handler_touch_facts ev w gl w1 info hl h
    subst hinfo
    refine ⟨rfl, rfl, ⟨t, htr, hnp⟩, ?_, ?_⟩
    · rw [hgw, touchGWList_length]
    · intro i hi hi1 hfil
      have hany := filtered_entry_any w gl w.gateways[i]
        (list_nat_gateways_some_eq w gl hl) (List.getElem_mem hi) hfil
      have hiT : i < (touchGWList w.now gl w.gateways).length := by
        rw [touchGWList_length]
        exact hi
      have hx := List.getElem_of_eq hgw hi1
      rw [hx, touchGWList_getElem w.now gl w.gateways i hi hiT hany]
  · intro ev ev2 w t2 w1 w2 ia ib hne h1run h2run
    rcases hl : list_nat_gateways w with _ | gl
    · exact absurd hl hne
    · obtain ⟨-, hvpc1, hgw1, t, htr1, hnp1⟩ := handler_touch_facts ev w gl w1 ia hl h1run
      have hglE := list_nat_gateways_some_eq w gl hl
      have hfne := list_nat_gateways_some_ne w gl hl
      have hgw1b : ({ w1 with now := t2 } : World).gateways =
          touchGWList w.now gl w.gateways := hgw1
      have hvpc1b : ({ w1 with now := t2 } : World).vpcId = w.vpcId := hvpc1
      obtain ⟨g, hgmem⟩ := List.exists_mem_of_ne_nil _ hfne
      obtain ⟨hgmem0, hgfil⟩ := List.mem_filter.mp hgmem
      have hg1mem : (if gl.any (fun e => e.gatewayId == g.natGatewayId) then
            { g with lastRequested := some w.now } else g) ∈
          ({ w1 with now := t2 } : World).gateways := by
        rw [hgw1b]
        exact List.mem_map_of_mem _ hgmem0
      have hg1fil : natGatewayFilter { w1 with now := t2 }
          (if gl.any (fun e => e.gatewayId == g.natGatewayId) then
            { g with lastRequested := some w.now } else g) = true := by
        unfold natGatewayFilter at hgfil ⊢
        rw [hvpc1b]
        split <;> exact hgfil
      have hfne2 : filteredGateways { w1 with now := t2 } ≠ [] :=
        List.ne_nil_of_mem (List.mem_filter.mpr ⟨hg1mem, hg1fil⟩)
      have hl2 := list_nat_gateways_of_ne _ hfne2
      obtain ⟨-, hvpc2, hgw2, t3, htr2, hnp2⟩ :=
        handler_touch_facts ev2 _ _ w2 ib hl2 h2run
      constructor
      · refine ⟨t ++ t3, ?_, ?_⟩
        · rw [htr2, show ({ w1 with now := t2 } : World).trace = w1.trace from rfl,
            htr1, List.append_assoc]
        · intro eff he
          rcases List.mem_append.mp he with hm | hm
          · exact hnp1 eff hm
          · exact hnp2 eff hm
      · intro i hi hi1 hi2b hfil
        have hany1 := filtered_entry_any w gl w.gateways[i] hglE
          (List.getElem_mem hi) hfil
        have hiT : i < (touchGWList w.now gl w.gateways).length := by
          rw [touchGWList_length]
          exact hi
        have he1 : w1.gateways[i] = { w.gateways[i] with lastRequested := some w.now } := by
          have hx := List.getElem_of_eq hgw1 hi1
          rw [hx, touchGWList_getElem w.now gl w.gateways i hi hiT hany1]
        refine ⟨by rw [he1], ?_⟩
        have hi1b : i < ({ w1 with now := t2 } : World).gateways.length := hi1
        have hfil1 : natGatewayFilter { w1 with now := t2 }
            (({ w1 with now := t2 } : World).gateways[i]) = true := by
          have hsame : ({ w1 with now := t2 } : World).gateways[i] = w1.gateways[i] := rfl
          rw [hsame, he1]
          unfold natGatewayFilter at hfil ⊢
          rw [hvpc1b]
          simpa using hfil
        have hany2 := filtered_entry_any { w1 with now := t2 } _
          (({ w1 with now := t2 } : World).gateways[i])
          (list_nat_gateways_some_eq _ _ hl2) (List.getElem_mem hi1b) hfil1
        have hiT2 : i < (touchGWList ({ w1 with now := t2 } : World).now
            ((filteredGateways { w1 with now := t2 }).map extractEntry)
            ({ w1 with now := t2 } : World).gateways).length := by
          rw [touchGWList_length]
          exact hi1b
        have he2 := List.getElem_of_eq hgw2 hi2b
        rw [he2, touchGWList_getElem _ _ _ i hi1b hiT2 hany2]

theorem claim_C4_request_flow_witness :
    request_gateway_handler sampleEv wBase =
      ((request_gateway_handler sampleEv wBase).1, Except.ok ⟨200, none⟩) ∧
    (∃ a s, Effect.createNatGateway a s wBase.freshId ∈
      (request_gateway_handler sampleEv wBase).1.trace) ∧
    (∃ t, (request_gateway_handler sampleEv wExisting).1.trace =
      wExisting.trace ++ t ∧
      ∀ eff ∈ t, ∀ a s g, eff ≠ Effect.createNatGateway a s g) := by
  refine ⟨by rfl, ?_, ?_⟩
  · exact (claim_C4_request_flow.1 sampleEv wBase
      (request_gateway_handler sampleEv wBase).1 ⟨200, none⟩ (by rfl) (by rfl)).2.2.1
  · exact (claim_C4_request_flow.2.1 sampleEv wExisting
      [⟨"g-a", "available", 0, some 100⟩]
      (request_gateway_handler sampleEv wExisting).1 ⟨200, some true⟩
      (by decide) (by rfl)).2.2.1

/-! ## Lemmas: the textual timestamp round-trip -/

theorem digit_char_isDigit : ∀ d < 10, (Char.ofNat (48 + d)).isDigit = true := by
  decide

theorem digit_char_toDigit : ∀ d < 10, charToDigit (Char.ofNat (48 + d)) = d := by
  decide

theorem digitsBE_length_le (k n : Nat) (h : n < 10 ^ k) :
    (digitsBE n).length ≤ k := by
  unfold digitsBE
  rw [List.length_map, List.length_reverse]
  by_contra hlt
  push_neg at hlt
  have hne : n ≠ 0 := by
    intro h0
    subst h0
    simp at hlt
  have hle : 10 ^ (Nat.digits 10 n).length ≤ 10 * n :=
    Nat.base_pow_length_digits_le 10 n (by norm_num) hne
  have h3 : 10 ^ (k + 1) ≤ 10 ^ (Nat.digits 10 n).length :=
    Nat.pow_le_pow_right (by norm_num) hlt
  have h4 : 10 * 10 ^ k ≤ 10 * n := by
    calc 10 * 10 ^ k = 10 ^ (k + 1) := by ring
    _ ≤ 10 ^ (Nat.digits 10 n).length := h3
    _ ≤ 10 * n := hle
  omega

theorem digitsBE_all_digit (n : Nat) : ∀ c ∈ digitsBE n, c.isDigit = true := by
  intro c hc
  unfold digitsBE at hc
  obtain ⟨d, hd, heq⟩ := List.mem_map.mp hc
  subst heq
  exact digit_char_isDigit d
    (Nat.digits_lt_base (by norm_num) (List.mem_reverse.mp hd))

theorem padBE_length (k n : Nat) (h : n < 10 ^ k) : (padBE k n).length = k := by
  unfold padBE
  rw [List.length_append, List.length_replicate]
  have := digitsBE_length_le k n h
  omega

theorem padBE_all_digit (k n : Nat) : (padBE k n).all Char.isDigit = true := by
  rw [List.all_eq_true]
  intro c hc
  unfold padBE at hc
  rcases List.mem_append.mp hc with hm | hm
  · rw [List.eq_of_mem_replicate hm]
    decide
  · exact digitsBE_all_digit n c hm

theorem foldl_digit_chars (l : List Nat) (hl : ∀ d ∈ l, d < 10) :
    List.foldl (fun a c => 10 * a + charToDigit c) 0
      ((l.reverse).map (fun d => Char.ofNat (48 + d))) = Nat.ofDigits 10 l := by
  induction l with
  | nil => simp [Nat.ofDigits]
  | cons d l ih =>
    have hd : d < 10 := hl d (List.mem_cons_self d l)
    have hl2 : ∀ x ∈ l, x < 10 := fun x hx => hl x (List.mem_cons_of_mem d hx)
    rw [List.reverse_cons, List.map_append, List.foldl_append, ih hl2]
    simp only [List.map_cons, List.map_nil, List.foldl_cons, List.foldl_nil]
    rw [digit_char_toDigit d hd, Nat.ofDigits_cons]
    ring

theorem decDigits_digitsBE (n : Nat) : decDigits (digitsBE n) = n := by
  unfold decDigits digitsBE
  rw [foldl_digit_chars (Nat.digits 10 n)
    (fun d hd => Nat.digits_lt_base (by norm_num) hd)]
  exact Nat.ofDigits_digits 10 n

theorem foldl_zero_chars (m : Nat) :
    List.foldl (fun a c => 10 * a + charToDigit c) 0
      (List.replicate m (Char.ofNat 48)) = 0 := by
  induction m with
  | zero => rfl
  | succ m ih =>
    rw [List.replicate_succ, List.foldl_cons]
    simpa [charToDigit] using ih

theorem decDigits_padBE (k n : Nat) : decDigits (padBE k n) = n := by
  unfold decDigits padBE
  rw [List.foldl_append, foldl_zero_chars]
  exact decDigits_digitsBE n

theorem parseFixedNat_pad (k n : Nat) (rest : List Char) (h : n < 10 ^ k) :
    parseFixedNat k (padBE k n ++ rest) = some (n, rest) := by
  unfold parseFixedNat
  have hlen := padBE_length k n h
  have ht : (padBE k n ++ rest).take k = padBE k n := List.take_left' hlen
  have hd : (padBE k n ++ rest).drop k = rest := List.drop_left' hlen
  simp only [ht, hd]
  simp [hlen, decDigits_padBE, padBE_all_digit]

theorem expectChar_cons (c : Char) (r : List Char) :
    expectChar c (c :: r) = some r := by
  simp [expectChar]

theorem takeWhile_of_all (p : Char → Bool) (l : List Char) (h : l.all p = true) :
    l.takeWhile p = l := by
  induction l with
  | nil => rfl
  | cons c l ih =>
    rw [List.all_cons, Bool.and_eq_true] at h
    rw [List.takeWhile_cons, if_pos h.1, ih h.2]

theorem dropWhile_of_all (p : Char → Bool) (l : List Char) (h : l.all p = true) :
    l.dropWhile p = [] := by
  induction l with
  | nil => rfl
  | cons c l ih =>
    rw [List.all_cons, Bool.and_eq_true] at h
    rw [List.dropWhile_cons, if_pos h.1, ih h.2]

theorem daysInMonth_le (y m : Nat) : daysInMonth y m ≤ 31 := by
  unfold daysInMonth
  split
  · split <;> omega
  · split <;> omega

theorem parseFixedNat_pad_nil (k n : Nat) (h : n < 10 ^ k) :
    parseFixedNat k (padBE k n) = some (n, []) := by
  have h2 := parseFixedNat_pad k n [] h
  simpa using h2

theorem parseFraction_pad6 (us : Nat) (h : us < 10 ^ 6) :
    parseFraction (Char.ofNat 46 :: padBE 6 us) = some us := by
  unfold parseFraction
  simp [takeWhile_of_all Char.isDigit _ (padBE_all_digit 6 us),
    dropWhile_of_all Char.isDigit _ (padBE_all_digit 6 us),
    padBE_length 6 us h, decDigits_padBE]

/-- Claim C8: the timestamp format round-trips.  Every `LastRequested` tag
value is written as the Python rendering of a naive `datetime`
(`'%s' % datetime.utcnow()`), and the inactivity computation reads it back
with `dateutil.parser.isoparse`; for every valid datetime, parsing the
written text recovers exactly the same instant, microseconds included
(both when the fraction is present and when it is omitted for zero
microseconds). -/
theorem claim_C8_timestamp_roundtrip :
    ∀ dt : PyDateTime, dt.Valid → isoparseTs (pyDatetimeStr dt) = some dt := by
  intro dt hv
  obtain ⟨y, mo, d, h, mi, s, us⟩ := dt
  unfold PyDateTime.Valid at hv
  dsimp only at hv
  obtain ⟨h1, h2, h3, h4, h5, h6, h7, h8, h9, h10⟩ := hv
  have e2 : (10:Nat)^2 = 100 := by norm_num
  have e4 : (10:Nat)^4 = 10000 := by norm_num
  have e6 : (10:Nat)^6 = 1000000 := by norm_num
  have hy : y < 10 ^ 4 := by rw [e4]; omega
  have hmo : mo < 10 ^ 2 := by rw [e2]; omega
  have hdd : d < 10 ^ 2 := by
    have hdm := daysInMonth_le y mo
    rw [e2]; omega
  have hh : h < 10 ^ 2 := by rw [e2]; omega
  have hmi : mi < 10 ^ 2 := by rw [e2]; omega
  have hs : s < 10 ^ 2 := by rw [e2]; omega
  have hus : us < 10 ^ 6 := by rw [e6]; omega
  have hvv : PyDateTime.Valid ⟨y, mo, d, h, mi, s, us⟩ := by
    unfold PyDateTime.Valid
    dsimp only
    exact ⟨h1, h2, h3, h4, h5, h6, h7, h8, h9, h10⟩
  by_cases h0 : us = 0
  · subst h0
    simp only [pyDatetimeStr, beq_self_eq_true, if_true, List.append_nil,
      List.append_assoc, List.cons_append, List.nil_append, List.singleton_append]
    unfold isoparseTs
    rw [parseFixedNat_pad 4 y _ hy]
    dsimp only
    rw [expectChar_cons]
    dsimp only
    rw [parseFixedNat_pad 2 mo _ hmo]
    dsimp only
    rw [expectChar_cons]
    dsimp only
    rw [parseFixedNat_pad 2 d _ hdd]
    dsimp only
    rw [parseFixedNat_pad 2 h _ hh]
    dsimp only
    rw [expectChar_cons]
    dsimp only
    rw [parseFixedNat_pad 2 mi _ hmi]
    dsimp only
    rw [expectChar_cons]
    dsimp only
    rw [parseFixedNat_pad_nil 2 s hs]
    dsimp only
    simp [parseFraction, mkPyDateTime, hvv]
  · have hne : (us == 0) = false := by simpa using h0
    simp only [pyDatetimeStr, hne, Bool.false_eq_true, if_false,
      List.append_assoc, List.cons_append, List.nil_append, List.singleton_append]
    unfold isoparseTs
    rw [parseFixedNat_pad 4 y _ hy]
    dsimp only
    rw [expectChar_cons]
    dsimp only
    rw [parseFixedNat_pad 2 mo _ hmo]
    dsimp only
    rw [expectChar_cons]
    dsimp only
    rw [parseFixedNat_pad 2 d _ hdd]
    dsimp only
    rw [parseFixedNat_pad 2 h _ hh]
    dsimp only
    rw [expectChar_cons]
    dsimp only
    rw [parseFixedNat_pad 2 mi _ hmi]
    dsimp only
    rw [expectChar_cons]
    dsimp only
    rw [parseFixedNat_pad 2 s _ hs]
    dsimp only
    rw [parseFraction_pad6 us hus]
    dsimp only
    simp [mkPyDateTime, hvv]

theorem claim_C8_timestamp_roundtrip_witness :
    PyDateTime.Valid ⟨2020, 11, 22, 13, 44, 55, 123⟩ ∧
    isoparseTs (pyDatetimeStr ⟨2020, 11, 22, 13, 44, 55, 123⟩) =
      some ⟨2020, 11, 22, 13, 44, 55, 123⟩ ∧
    PyDateTime.Valid ⟨2021, 2, 28, 23, 59, 59, 0⟩ ∧
    isoparseTs (pyDatetimeStr ⟨2021, 2, 28, 23, 59, 59, 0⟩) =
      some ⟨2021, 2, 28, 23, 59, 59, 0⟩ :=
  ⟨by decide, claim_C8_timestamp_roundtrip ⟨2020, 11, 22, 13, 44, 55, 123⟩ (by decide),
   by decide, claim_C8_timestamp_roundtrip ⟨2021, 2, 28, 23, 59, 59, 0⟩ (by decide)⟩

end RequestGateway
